import Mathlib

/-!
Verification development for the nuvia-enrich enrichment engine.

This file gives a shallow embedding, in Lean 4, of the parts of the
TypeScript source relevant to the frozen claims:

* `src/lib/strategies/agent-enrichment-strategy.ts` (session scheduler and
  per-session domain cache),
* `src/lib/agent-architecture/orchestrator.ts` (field reconciler, derived
  field table, bilingual alias resolver, executive field mapping),
* `src/lib/agent-architecture/agents/discovery-agent.ts` (discovery
  coordinator and zod result validation),
* the web-research tool (signal post-processing),
* `src/lib/agent-architecture/tools/snov-tool.ts` (retry/backoff loops) and
  `src/lib/agent-architecture/tools/apollo-tool.ts` (provider adapters).

Asynchronous network effects are modelled by passing each code path the
outcomes of its outbound calls explicitly (an `Except` value per request,
or a stream of HTTP responses indexed by fetch count).  JavaScript `null`
is an explicit `JsValue.null`; JavaScript `undefined` is `Option.none` at
the use sites.  Floating point confidence constants are stored in
hundredths (0.9 becomes 90); none of the claims inspects their arithmetic.
-/

set_option maxHeartbeats 1000000

namespace NuviaEnrich

/-- JSON-like values as produced and consumed by the TypeScript code. -/
inductive JsValue where
  | str (s : String)
  | num (n : Int)
  | bool (b : Bool)
  | arr (xs : List JsValue)
  | obj (fields : List (String × JsValue))
  | null
  deriving Repr

mutual

/-- Decidable equality on `JsValue` (the nested lists prevent deriving). -/
def JsValue.decEq : (a b : JsValue) → Decidable (a = b)
  | .str s, .str t =>
    match String.decEq s t with
    | isTrue h => isTrue (by rw [h])
    | isFalse h => isFalse (by intro he; cases he; exact h rfl)
  | .num m, .num n =>
    match Int.decEq m n with
    | isTrue h => isTrue (by rw [h])
    | isFalse h => isFalse (by intro he; cases he; exact h rfl)
  | .bool a, .bool b =>
    match Bool.decEq a b with
    | isTrue h => isTrue (by rw [h])
    | isFalse h => isFalse (by intro he; cases he; exact h rfl)
  | .arr xs, .arr ys =>
    match JsValue.decEqList xs ys with
    | isTrue h => isTrue (by rw [h])
    | isFalse h => isFalse (by intro he; cases he; exact h rfl)
  | .obj fs, .obj gs =>
    match JsValue.decEqFields fs gs with
    | isTrue h => isTrue (by rw [h])
    | isFalse h => isFalse (by intro he; cases he; exact h rfl)
  | .null, .null => isTrue rfl
  | .str _, .num _ => isFalse (by intro h; cases h)
  | .str _, .bool _ => isFalse (by intro h; cases h)
  | .str _, .arr _ => isFalse (by intro h; cases h)
  | .str _, .obj _ => isFalse (by intro h; cases h)
  | .str _, .null => isFalse (by intro h; cases h)
  | .num _, .str _ => isFalse (by intro h; cases h)
  | .num _, .bool _ => isFalse (by intro h; cases h)
  | .num _, .arr _ => isFalse (by intro h; cases h)
  | .num _, .obj _ => isFalse (by intro h; cases h)
  | .num _, .null => isFalse (by intro h; cases h)
  | .bool _, .str _ => isFalse (by intro h; cases h)
  | .bool _, .num _ => isFalse (by intro h; cases h)
  | .bool _, .arr _ => isFalse (by intro h; cases h)
  | .bool _, .obj _ => isFalse (by intro h; cases h)
  | .bool _, .null => isFalse (by intro h; cases h)
  | .arr _, .str _ => isFalse (by intro h; cases h)
  | .arr _, .num _ => isFalse (by intro h; cases h)
  | .arr _, .bool _ => isFalse (by intro h; cases h)
  | .arr _, .obj _ => isFalse (by intro h; cases h)
  | .arr _, .null => isFalse (by intro h; cases h)
  | .obj _, .str _ => isFalse (by intro h; cases h)
  | .obj _, .num _ => isFalse (by intro h; cases h)
  | .obj _, .bool _ => isFalse (by intro h; cases h)
  | .obj _, .arr _ => isFalse (by intro h; cases h)
  | .obj _, .null => isFalse (by intro h; cases h)
  | .null, .str _ => isFalse (by intro h; cases h)
  | .null, .num _ => isFalse (by intro h; cases h)
  | .null, .bool _ => isFalse (by intro h; cases h)
  | .null, .arr _ => isFalse (by intro h; cases h)
  | .null, .obj _ => isFalse (by intro h; cases h)

def JsValue.decEqList : (a b : List JsValue) → Decidable (a = b)
  | [], [] => isTrue rfl
  | [], _ :: _ => isFalse (by intro h; cases h)
  | _ :: _, [] => isFalse (by intro h; cases h)
  | x :: xs, y :: ys =>
    match JsValue.decEq x y with
    | isTrue h1 =>
      match JsValue.decEqList xs ys with
      | isTrue h2 => isTrue (by rw [h1, h2])
      | isFalse h2 => isFalse (by intro he; cases he; exact h2 rfl)
    | isFalse h1 => isFalse (by intro he; cases he; exact h1 rfl)

def JsValue.decEqFields : (a b : List (String × JsValue)) → Decidable (a = b)
  | [], [] => isTrue rfl
  | [], _ :: _ => isFalse (by intro h; cases h)
  | _ :: _, [] => isFalse (by intro h; cases h)
  | (k, v) :: xs, (l, w) :: ys =>
    match String.decEq k l with
    | isTrue hk =>
      match JsValue.decEq v w with
      | isTrue h1 =>
        match JsValue.decEqFields xs ys with
        | isTrue h2 => isTrue (by rw [hk, h1, h2])
        | isFalse h2 => isFalse (by intro he; cases he; exact h2 rfl)
      | isFalse h1 => isFalse (by intro he; cases he; exact h1 rfl)
    | isFalse hk => isFalse (by intro he; cases he; exact hk rfl)

end

instance : DecidableEq JsValue := JsValue.decEq

/-- Escape of double quotes and backslashes, the part of JSON string quoting
exercised by the embedded values. -/
def jsonEscape (s : String) : String :=
  s.foldl (fun acc c =>
    if c = '\\' then acc ++ "\\\\"
    else if c = '"' then acc ++ "\\\""
    else acc.push c) ""

mutual

/-- Model of `JSON.stringify` on the embedded value space. -/
def jsonStringify : JsValue → String
  | .str s => "\"" ++ jsonEscape s ++ "\""
  | .num n => toString n
  | .bool b => if b then "true" else "false"
  | .null => "null"
  | .arr xs => "[" ++ jsonStringifyList xs ++ "]"
  | .obj fs => "\x7b" ++ jsonStringifyFields fs ++ "\x7d"

def jsonStringifyList : List JsValue → String
  | [] => ""
  | [x] => jsonStringify x
  | x :: xs => jsonStringify x ++ "," ++ jsonStringifyList xs

def jsonStringifyFields : List (String × JsValue) → String
  | [] => ""
  | [(k, v)] => "\"" ++ jsonEscape k ++ "\":" ++ jsonStringify v
  | (k, v) :: fs => "\"" ++ jsonEscape k ++ "\":" ++ jsonStringify v ++ "," ++ jsonStringifyFields fs

end

/-- Lookup in an association list of JSON object fields (first match wins,
like property access on a JavaScript object built in insertion order). -/
def lookupJs (l : List (String × JsValue)) (k : String) : Option JsValue :=
  (l.find? (fun p => p.1 == k)).map (·.2)

/-- JavaScript string-falsiness of a possibly-undefined string: `undefined`
and the empty string are falsy. -/
def falsyS : Option String → Bool
  | none => true
  | some s => s == ""

/-- JavaScript `a || b` on possibly-undefined strings. -/
def jsOrS (a b : Option String) : Option String :=
  if falsyS a then b else a

/-- JavaScript `x1 || x2 || ... || last` where every `xi` is a
possibly-undefined string and `last` is a plain string. -/
def jsOrChain (xs : List (Option String)) (last : String) : String :=
  match xs with
  | [] => last
  | x :: rest =>
    match x with
    | some s => if s == "" then jsOrChain rest last else s
    | none => jsOrChain rest last

/-! String primitives.  The embedding works on the character lists backing
Lean strings, with structural recursion throughout, so that every theorem
about a concrete input can be checked by kernel evaluation. -/

/-- Prefix test on character lists. -/
def charsIsPrefix : List Char → List Char → Bool
  | [], _ => true
  | _ :: _, [] => false
  | p :: ps, x :: xs => p == x && charsIsPrefix ps xs

/-- Substring search on character lists (`haystack` then `needle`). -/
def charsContains : List Char → List Char → Bool
  | [], needle => needle.isEmpty
  | x :: xs, needle => charsIsPrefix needle (x :: xs) || charsContains xs needle

/-- Substring test: `s.includes(pat)`. -/
def strContains (s pat : String) : Bool :=
  charsContains s.toList pat.toList

/-- Prefix test: `s.startsWith(pre)`. -/
def strStartsWith (s pre : String) : Bool :=
  charsIsPrefix pre.toList s.toList

/-- Drop the first `n` characters of a string. -/
def strDrop (s : String) (n : Nat) : String :=
  String.mk (s.toList.drop n)

/-- ASCII lower-casing table. -/
def asciiLowerPairs : List (Char × Char) :=
  [('A', 'a'), ('B', 'b'), ('C', 'c'), ('D', 'd'), ('E', 'e'), ('F', 'f'),
   ('G', 'g'), ('H', 'h'), ('I', 'i'), ('J', 'j'), ('K', 'k'), ('L', 'l'),
   ('M', 'm'), ('N', 'n'), ('O', 'o'), ('P', 'p'), ('Q', 'q'), ('R', 'r'),
   ('S', 's'), ('T', 't'), ('U', 'u'), ('V', 'v'), ('W', 'w'), ('X', 'x'),
   ('Y', 'y'), ('Z', 'z')]

/-- Model of `toLowerCase()` for the ASCII letters the embedded string
comparisons exercise (accented capitals are folded separately where the
alias normalization needs them). -/
def strToLower (s : String) : String :=
  String.mk (s.toList.map (fun c =>
    match asciiLowerPairs.find? (fun p => p.1 == c) with
    | some p => p.2
    | none => c))

/-- Drop leading whitespace. -/
def dropLeadingWs : List Char → List Char
  | [] => []
  | c :: cs => if c.isWhitespace then dropLeadingWs cs else c :: cs

/-- Model of `trim()`: strip whitespace at both ends. -/
def strTrim (s : String) : String :=
  String.mk ((dropLeadingWs (dropLeadingWs s.toList.reverse).reverse))

/-- Split a character list at every occurrence of one separator char. -/
def splitOnCharAux (sep : Char) : List Char → List (List Char)
  | [] => [[]]
  | x :: xs =>
    let r := splitOnCharAux sep xs
    if x == sep then [] :: r
    else
      match r with
      | [] => [[x]]
      | h :: t => (x :: h) :: t

/-- Model of `split(sep)` for a one-character separator. -/
def strSplitOnChar (sep : Char) (s : String) : List String :=
  (splitOnCharAux sep s.toList).map String.mk

/-- Split a character list at whitespace runs, keeping non-empty words. -/
def wordsOf (s : String) : List String :=
  ((splitOnCharAux ' ' (s.toList.map (fun c => if c.isWhitespace then ' ' else c))).map
    String.mk).filter (fun w => w != "")

/-- Join strings with a separator (`Array.prototype.join`). -/
def joinWith (sep : String) : List String → String
  | [] => ""
  | [x] => x
  | x :: xs => x ++ sep ++ joinWith sep xs

/-- Parse a non-empty all-digit string. -/
def digitsToNat? (s : String) : Option Nat :=
  if s.toList ≠ [] && s.toList.all Char.isDigit then
    some (s.toList.foldl (fun acc c => acc * 10 + (c.toNat - 48)) 0)
  else none

/-- Test whether a value is a JSON string. -/
def isStr : JsValue → Bool
  | .str _ => true
  | _ => false

/-- Model of `normalizeValue` in `orchestrator.ts` (lines 213-242): `null`
and `undefined` become `undefined` (`Option.none`); scalars pass through;
arrays of strings pass through; other array elements are reduced to an
object's string `title` property when present, else JSON-stringified;
non-array objects are JSON-stringified. -/
def normalizeValue : JsValue → Option JsValue
  | .null => none
  | .str s => some (.str s)
  | .num n => some (.num n)
  | .bool b => some (.bool b)
  | .arr xs =>
      if xs.all isStr then some (.arr xs)
      else some (.arr (xs.map (fun x =>
        match x with
        | .str s => .str s
        | .obj fs =>
          match lookupJs fs "title" with
          | some (.str t) => .str t
          | _ => .str (jsonStringify (.obj fs))
        | other => .str (jsonStringify other))))
  | .obj fs => some (.str (jsonStringify (.obj fs)))

/-- One reconciled output value (`EnrichmentResult` in `lib/types`):
`confidence` is in hundredths, `sourceContext` is always emitted empty by
the embedded code paths. -/
structure EnrichmentResult where
  field : String
  value : JsValue
  confidence : Nat
  source : String
  sourceContext : List String := []
  sourceCount : Option Nat := none
  deriving Repr, DecidableEq

/-- Row lifecycle status. -/
inductive RowStatus where
  | pending
  | processing
  | completed
  | skipped
  | error
  deriving Repr, DecidableEq

/-- A CSV row: ordered column/value pairs, looked up by column name. -/
abbrev Row := List (String × String)

/-- Column access `row[k]`: `Option.none` models JavaScript `undefined`. -/
def rowGet (row : Row) (k : String) : Option String :=
  (row.find? (fun p => p.1 == k)).map (·.2)

/-- The per-row result shape (`RowEnrichmentResult`). -/
structure RowEnrichmentResult where
  rowIndex : Nat
  originalData : Row
  enrichments : List (String × EnrichmentResult)
  status : RowStatus
  error : Option String := none
  deriving Repr, DecidableEq

/-! ## AgentEnrichmentStrategy (`src/lib/strategies/agent-enrichment-strategy.ts`)

The session-level strategy keeps a per-session `domainCache` mapping a
normalized company domain to the filtered enrichment map of the first row
processed for that domain.  The skip-list module (`lib/utils/skip-list`) is
an external collaborator (spec section 6); its `shouldSkipEmail` and
`getSkipReason` functions are passed in as parameters.  The awaited result
of `this.orchestrator.enrichRow` for the row is likewise a parameter: the
orchestrator catches all of its own exceptions (see `orchEnrichRow` below),
so the strategy's `catch` branch is unreachable and is not modelled. -/

/-- Explicit domain from the row columns:
`(row[company_domain] || row[domain] || '').toString().trim().toLowerCase()`. -/
def explicitDomain (row : Row) : String :=
  strToLower (strTrim ((jsOrS (rowGet row "company_domain") (rowGet row "domain")).getD ""))

/-- Email-derived domain in the strategy:
`email.includes(at) ? email.split(at)[1].toLowerCase() : ''` for a present
email value, else the empty string. -/
def emailDomainOfStrat (email : Option String) : String :=
  match email with
  | some e => if e.toList.contains '@' then strToLower ((strSplitOnChar '@' e).getD 1 "") else ""
  | none => ""

/-- Strip one leading `www.` (the `replace` with an anchored pattern). -/
def stripWww (s : String) : String :=
  if strStartsWith s "www." then strDrop s 4 else s

/-- The cache key: `(explicitDomain || emailDomain || '').replace(www, '')`
with the explicit column preferred over the email-derived domain. -/
def primaryDomain (row : Row) (emailColumn : String) : String :=
  let e := explicitDomain row
  let m := emailDomainOfStrat (rowGet row emailColumn)
  stripWww (if e != "" then e else if m != "" then m else "")

/-- The per-field enrichment map of one row. -/
abbrev Enrichments := List (String × EnrichmentResult)

/-- The session domain cache (`Map<string, Record<string, EnrichmentResult>>`). -/
abbrev DomainCache := List (String × Enrichments)

/-- Lookup in the domain cache (`Map.get`). -/
def cacheGet (c : DomainCache) (k : String) : Option Enrichments :=
  (c.find? (fun p => p.1 == k)).map (·.2)

/-- Insertion into the domain cache (`Map.set`, overwriting semantics). -/
def cacheSet (c : DomainCache) (k : String) (v : Enrichments) : DomainCache :=
  (k, v) :: c.filter (fun p => p.1 != k)

/-- Drop every enrichment entry whose value is JavaScript `null`
(the `enrichment.value !== null` filter). -/
def filterNonNull (e : Enrichments) : Enrichments :=
  e.filter (fun p => p.2.value != JsValue.null)

/-- Outcome of one strategy call: the row result, the updated session
cache, and whether the orchestrator (and hence any provider) was invoked. -/
structure StratOutcome where
  result : RowEnrichmentResult
  cache : DomainCache
  calledOrchestrator : Bool
  deriving Repr

/-- Model of `AgentEnrichmentStrategy.enrichRow` (lines 20-123): missing
email check, then the skip-list check, then the domain-cache lookup, and
only then the orchestrator call; on a fresh domain the filtered result is
written back to the cache. -/
def stratEnrichRow (shouldSkipEmail : String → Bool) (getSkipReason : String → String)
    (orchResult : RowEnrichmentResult) (cache : DomainCache)
    (row : Row) (emailColumn : String) : StratOutcome :=
  let email := rowGet row emailColumn
  let domain := primaryDomain row emailColumn
  if falsyS email then
    ⟨⟨0, row, [], .error, some "No email found in specified column"⟩, cache, false⟩
  else if shouldSkipEmail (email.getD "") then
    ⟨⟨0, row, [], .skipped, some (getSkipReason (email.getD ""))⟩, cache, false⟩
  else
    match (if domain != "" then cacheGet cache domain else none) with
    | some cached =>
        ⟨⟨0, row, filterNonNull cached, .completed, none⟩, cache, false⟩
    | none =>
        let filtered := filterNonNull orchResult.enrichments
        let cache2 := if domain != "" then cacheSet cache domain filtered else cache
        ⟨{ orchResult with enrichments := filtered }, cache2, true⟩

/-- Sequential processing of a batch of rows through one strategy instance
(the session): threads the domain cache left to right and records, per row,
the result and whether the orchestrator was invoked. -/
def processRows (shouldSkipEmail : String → Bool) (getSkipReason : String → String)
    (orch : Row → RowEnrichmentResult) (cache : DomainCache)
    (rows : List Row) (emailColumn : String) :
    List (RowEnrichmentResult × Bool) × DomainCache :=
  match rows with
  | [] => ([], cache)
  | r :: rest =>
      let o := stratEnrichRow shouldSkipEmail getSkipReason (orch r) cache r emailColumn
      let tail := processRows shouldSkipEmail getSkipReason orch o.cache rest emailColumn
      ((o.result, o.calledOrchestrator) :: tail.1, tail.2)

/-! ## AgentOrchestrator (`src/lib/agent-architecture/orchestrator.ts`) -/

/-- One validated priority signal, after the zod `Signal` schema of
`discovery-agent.ts` (ids and weights coerced to strings, category mapped
to the Portuguese enum). -/
structure PrioritySignal where
  signal_id : String
  signal_name : String
  category : String
  weight : String
  date : String
  title : String
  description : String
  source_url : String
  confidence : String
  recommended_action : String
  copy_angle : String
  deriving Repr, DecidableEq

/-- The validated `company_analysis` object: exactly the nine keys of the
zod `CompanyAnalysisResult` schema (unknown keys are stripped by `parse`).
`signals_by_category` keeps its JSON object fields because the schema
passes unvalidated extra keys through. -/
structure CompanyAnalysis where
  company_name : String
  search_date : String
  data_freshness : String
  overall_signal_strength : String
  priority_signals : List PrioritySignal
  total_signals_found : Int
  signals_by_category : List (String × JsValue)
  key_insights : String
  personalization_hooks : List String
  deriving Repr, DecidableEq

/-- A validated signal as a JSON object, in schema field order. -/
def signalToJs (s : PrioritySignal) : JsValue :=
  .obj [("signal_id", .str s.signal_id), ("signal_name", .str s.signal_name),
        ("category", .str s.category), ("weight", .str s.weight),
        ("date", .str s.date), ("title", .str s.title),
        ("description", .str s.description), ("source_url", .str s.source_url),
        ("confidence", .str s.confidence),
        ("recommended_action", .str s.recommended_action),
        ("copy_angle", .str s.copy_angle)]

/-- Property access on the parsed `companyAnalysis` object
(`Object.prototype.hasOwnProperty` plus indexing): the parsed object has
exactly the nine schema keys. -/
def caLookup (ca : CompanyAnalysis) (k : String) : Option JsValue :=
  if k == "company_name" then some (.str ca.company_name)
  else if k == "search_date" then some (.str ca.search_date)
  else if k == "data_freshness" then some (.str ca.data_freshness)
  else if k == "overall_signal_strength" then some (.str ca.overall_signal_strength)
  else if k == "priority_signals" then some (.arr (ca.priority_signals.map signalToJs))
  else if k == "total_signals_found" then some (.num ca.total_signals_found)
  else if k == "signals_by_category" then some (.obj ca.signals_by_category)
  else if k == "key_insights" then some (.str ca.key_insights)
  else if k == "personalization_hooks" then
    some (.arr (ca.personalization_hooks.map JsValue.str))
  else none

/-- Keyword table of `inferIndustry` (lines 86-107), in source order. -/
def industryKeywords : List (String × String) :=
  [("saas", "SaaS"), ("crm", "CRM"), ("email", "Sales Tech"),
   ("outbound", "Sales Tech"), ("marketing", "Marketing Tech"),
   (" ai", "AI"), ("ai ", "AI"), ("machine learning", "AI"),
   ("analytics", "Data & Analytics"), ("data", "Data & Analytics"),
   ("security", "Security"), ("cyber", "Security"),
   ("fintech", "Fintech"), ("payment", "Fintech"),
   ("ecommerce", "E-commerce"), ("e-commerce", "E-commerce"),
   ("health", "Healthcare"), ("med", "Healthcare"),
   ("edtech", "Edtech"), ("education", "Edtech")]

/-- Model of `inferIndustry` (lines 74-115): join the analysis name, key
insights and each signal title/description, lower-case the blob, return
the label of the first matching keyword, else `unknown`. -/
def inferIndustry (ca : CompanyAnalysis) : String :=
  let texts := [ca.company_name, ca.key_insights] ++
    (ca.priority_signals.map (fun s => [s.title, s.description])).flatten
  let blob := strToLower (joinWith " " texts)
  match industryKeywords.find? (fun p => strContains blob p.1) with
  | some p => p.2
  | none => "unknown"

/-- The `derived` mapping (lines 117-130), in source order. -/
def derived (ca : CompanyAnalysis) : List (String × JsValue) :=
  [("companyName", .str ca.company_name),
   ("companyDescription", .str ca.key_insights),
   ("industry", .str (inferIndustry ca)),
   ("keyInsights", .str ca.key_insights),
   ("signalStrength", .str ca.overall_signal_strength),
   ("signalsFound", .num ca.total_signals_found),
   ("signalsByCategory", .obj ca.signals_by_category),
   ("personalizationHooks", .arr (ca.personalization_hooks.map JsValue.str)),
   ("searchDate", .str ca.search_date),
   ("dataFreshness", .str ca.data_freshness),
   ("prioritySignals", .arr (ca.priority_signals.map signalToJs))]

/-- The canonical derived field names (the keys of `derived`). -/
def derivedKeys : List String :=
  ["companyName", "companyDescription", "industry", "keyInsights",
   "signalStrength", "signalsFound", "signalsByCategory",
   "personalizationHooks", "searchDate", "dataFreshness", "prioritySignals"]

/-- The English/camel section of the alias table (lines 265-276, under the
source comment for English/camel variations), in source order. -/
def englishAliasEntries : List (String × String) :=
  [("companyname", "companyName"), ("companydescription", "companyDescription"),
   ("industry", "industry"), ("keyinsights", "keyInsights"),
   ("signalstrength", "signalStrength"), ("signalsfound", "signalsFound"),
   ("personalizationhooks", "personalizationHooks"),
   ("signalsbycategory", "signalsByCategory"),
   ("prioritysignals", "prioritySignals"), ("searchdate", "searchDate"),
   ("datafreshness", "dataFreshness")]

/-- The Portuguese section of the alias table (lines 278-302, under the
source comment for Portuguese aliases), in source order. -/
def portugueseAliasEntries : List (String × String) :=
  [("empresa", "companyName"), ("nomeempresa", "companyName"),
   ("nomedaempresa", "companyName"), ("descricao", "companyDescription"),
   ("descricaoempresa", "companyDescription"),
   ("descricaodaempresa", "companyDescription"),
   ("industria", "industry"), ("setor", "industry"), ("segmento", "industry"),
   ("forcadosinal", "signalStrength"), ("forcasinal", "signalStrength"),
   ("intensidadesinal", "signalStrength"),
   ("sinaisencontrados", "signalsFound"), ("totalsinais", "signalsFound"),
   ("ganchospersonalizacao", "personalizationHooks"),
   ("personalizacaoganchos", "personalizationHooks"),
   ("sinaisporcategoria", "signalsByCategory"),
   ("categoriassinais", "signalsByCategory"),
   ("sinaisprioritarios", "prioritySignals"), ("topsinais", "prioritySignals"),
   ("datapesquisa", "searchDate"), ("databusca", "searchDate"),
   ("recenciadados", "dataFreshness"), ("freshnessdados", "dataFreshness")]

/-- The full `aliasMap` (lines 264-303): English entries then Portuguese
entries, as laid out in the source object literal. -/
def aliasMap : List (String × String) :=
  englishAliasEntries ++ portugueseAliasEntries

/-- Folding table standing in for NFD decomposition followed by removal of
combining marks, for the Latin letters that appear in the localized field
names; both cases are listed because Lean's `toLower` only lowers ASCII. -/
def diacriticPairs : List (Char × Char) :=
  [('á', 'a'), ('à', 'a'), ('â', 'a'), ('ã', 'a'), ('ä', 'a'),
   ('Á', 'a'), ('À', 'a'), ('Â', 'a'), ('Ã', 'a'), ('Ä', 'a'),
   ('é', 'e'), ('è', 'e'), ('ê', 'e'), ('ë', 'e'),
   ('É', 'e'), ('È', 'e'), ('Ê', 'e'), ('Ë', 'e'),
   ('í', 'i'), ('ì', 'i'), ('î', 'i'), ('ï', 'i'),
   ('Í', 'i'), ('Ì', 'i'), ('Î', 'i'), ('Ï', 'i'),
   ('ó', 'o'), ('ò', 'o'), ('ô', 'o'), ('õ', 'o'), ('ö', 'o'),
   ('Ó', 'o'), ('Ò', 'o'), ('Ô', 'o'), ('Õ', 'o'), ('Ö', 'o'),
   ('ú', 'u'), ('ù', 'u'), ('û', 'u'), ('ü', 'u'),
   ('Ú', 'u'), ('Ù', 'u'), ('Û', 'u'), ('Ü', 'u'),
   ('ç', 'c'), ('Ç', 'c'), ('ñ', 'n'), ('Ñ', 'n')]

/-- Model of the alias normalization (lines 259-263): lower-case, strip
diacritics via NFD, then drop every character outside `[a-z0-9]`. -/
def normalizeAlias (s : String) : String :=
  String.mk ((strToLower s).toList.filterMap (fun c =>
    let c2 := match diacriticPairs.find? (fun p => p.1 == c) with
      | some p => p.2
      | none => c
    if (('a' ≤ c2 && c2 ≤ 'z') || ('0' ≤ c2 && c2 ≤ '9')) then some c2 else none))

/-- Requested output column (`EnrichmentField` of `lib/types`). -/
structure EnrichmentField where
  name : String
  displayName : String
  description : String
  fieldType : String
  required : Bool
  deriving Repr, DecidableEq

/-- Title keywords of `isExecutiveField` (line 69). -/
def executiveTitles : List String :=
  ["ceo", "cto", "cfo", "coo", "cmo", "cpo", "chief", "founder",
   "president", "director", "executive"]

/-- Model of `isExecutiveField` (lines 66-71). -/
def isExecutiveField (f : EnrichmentField) : Bool :=
  let n := strToLower f.name
  let d := strToLower f.description
  executiveTitles.any (fun t => strContains n t || strContains d t)

/-- A person reference inside the People Agent output. -/
structure PersonRef where
  name : Option String
  linkedin : Option String
  deriving Repr, DecidableEq

/-- The People Agent `finalOutput` shape read by `mapExecutiveField`:
optional ceo, founder and executive lists, per-branch confidences (in
hundredths) and a source list. -/
structure PeopleOutput where
  ceo : Option PersonRef
  founders : List PersonRef
  keyExecutives : List PersonRef
  confidenceCeo : Option Nat
  confidenceFounders : Option Nat
  sources : List String
  deriving Repr, DecidableEq

/-- Keep a string only when it is present and truthy (the
`filter(x => typeof x === string && x)` steps). -/
def nonEmptyOpt : Option String → Option String
  | some s => if s == "" then none else some s
  | none => none

/-- Return shape of `mapExecutiveField`: an `undefined` value models the
empty-object returns. -/
structure ExecMapped where
  value : Option JsValue
  confidence : Option Nat
  sources : List String
  deriving Repr, DecidableEq

/-- Model of `mapExecutiveField` (lines 164-212): CEO, founder and
executive/leadership branches keyed by substrings of the lower-cased field
name, with a LinkedIn variant when the name or description mentions
LinkedIn; list-valued fields join names with a comma unless the requested
type is `array`. -/
def mapExecutiveField (people : Option PeopleOutput) (f : EnrichmentField) : ExecMapped :=
  match people with
  | none => ⟨none, none, []⟩
  | some p =>
    let nameLower := strToLower f.name
    let descLower := strToLower f.description
    let wantsLinkedin := strContains nameLower "linkedin" ||
      strContains descLower "linkedin" || strContains nameLower "link"
    if strContains nameLower "ceo" then
      let value := match p.ceo with
        | none => none
        | some c => if wantsLinkedin then c.linkedin else c.name
      ⟨value.map JsValue.str, some (p.confidenceCeo.getD 85), p.sources⟩
    else if strContains nameLower "founder" then
      let vals := p.founders.filterMap (fun pr =>
        nonEmptyOpt (if wantsLinkedin then pr.linkedin else pr.name))
      let value := if f.fieldType == "array" then JsValue.arr (vals.map JsValue.str)
        else JsValue.str (joinWith ", " vals)
      ⟨some value, some (p.confidenceFounders.getD 80), p.sources⟩
    else if strContains nameLower "executive" || strContains nameLower "leadership" then
      let vals := p.keyExecutives.filterMap (fun pr =>
        nonEmptyOpt (if wantsLinkedin then pr.linkedin else pr.name))
      let value := if f.fieldType == "array" then JsValue.arr (vals.map JsValue.str)
        else JsValue.str (joinWith ", " vals)
      ⟨some value, some 75, p.sources⟩
    else ⟨none, none, []⟩

/-- Resolution steps 1-3 of the field loop (lines 247-308): direct key on
the analysis, then the derived table, then the normalized bilingual alias
table feeding back into the derived table. -/
def resolveDirectDerivedAlias (ca : CompanyAnalysis) (name : String) : Option JsValue :=
  match caLookup ca name with
  | some v => some v
  | none =>
    match lookupJs (derived ca) name with
    | some v => some v
    | none =>
      match (aliasMap.find? (fun p => p.1 == normalizeAlias name)).map (·.2) with
      | some al => lookupJs (derived ca) al
      | none => none

/-- The effective `peopleOutput` of one orchestrator run: the People Agent
is only consulted when at least one requested field is executive-flavoured
(lines 132-159); `outcome` is the awaited agent result (`none` when the
agent failed or returned no final output). -/
def effectivePeople (fields : List EnrichmentField) (outcome : Option PeopleOutput) :
    Option PeopleOutput :=
  if (fields.filter isExecutiveField).length > 0 then outcome else none

/-- Resolution of one requested field into an enrichment entry, or `none`
when the field must be omitted (steps 1-4 plus `normalizeValue`, lines
244-339).  Step 4 only fires when steps 1-3 left the value undefined and
some executive-flavoured requested field shares this field's name. -/
def resolveField (ca : CompanyAnalysis) (people : Option PeopleOutput)
    (fields : List EnrichmentField) (f : EnrichmentField) : Option EnrichmentResult :=
  match resolveDirectDerivedAlias ca f.name with
  | some v =>
      (normalizeValue v).map (fun nv =>
        { field := f.name, value := nv, confidence := 90,
          source := "Multiple sources", sourceContext := [], sourceCount := none })
  | none =>
      if (fields.filter isExecutiveField).any (fun g => g.name == f.name) then
        let mapped := mapExecutiveField people f
        match mapped.value with
        | some mv =>
          match normalizeValue mv with
          | some nv =>
            some { field := f.name, value := nv,
                   confidence := mapped.confidence.getD 80,
                   source := "Web research", sourceContext := [],
                   sourceCount := some mapped.sources.length }
          | none => none
        | none => none
      else none

/-- Property assignment on the enrichments object: an existing key keeps
its position and is overwritten, a new key is appended. -/
def setAssoc (l : Enrichments) (k : String) (v : EnrichmentResult) : Enrichments :=
  if l.any (fun p => p.1 == k) then
    l.map (fun p => if p.1 == k then (k, v) else p)
  else l ++ [(k, v)]

/-- The field loop of `AgentOrchestrator.enrichRow` (lines 244-339). -/
def orchFieldLoop (ca : CompanyAnalysis) (people : Option PeopleOutput)
    (fields : List EnrichmentField) : Enrichments :=
  fields.foldl (fun acc f =>
    match resolveField ca people fields f with
    | some e => setAssoc acc f.name e
    | none => acc) []

/-- Model of `AgentOrchestrator.enrichRow` (lines 22-357).  `discovery` is
the awaited outcome of `runDiscoveryAgent` (an exception there lands in
the catch branch, giving an error row result); `peopleOutcome` is the
awaited People Agent output when it is consulted.  Progress callbacks are
side-effect only and not modelled. -/
def orchEnrichRow (discovery : Except String CompanyAnalysis)
    (peopleOutcome : Option PeopleOutput) (row : Row)
    (fields : List EnrichmentField) (emailColumn : String) : RowEnrichmentResult :=
  let email := rowGet row emailColumn
  if falsyS email then
    ⟨0, row, [], .error, some "No email found"⟩
  else
    match discovery with
    | .error msg => ⟨0, row, [], .error, some msg⟩
    | .ok ca =>
        ⟨0, row, orchFieldLoop ca (effectivePeople fields peopleOutcome) fields,
         .completed, none⟩

/-- The strategy composed with the orchestrator it delegates to. -/
def stratEnrichRowFull (shouldSkipEmail : String → Bool) (getSkipReason : String → String)
    (discovery : Except String CompanyAnalysis) (peopleOutcome : Option PeopleOutput)
    (cache : DomainCache) (row : Row) (fields : List EnrichmentField)
    (emailColumn : String) : StratOutcome :=
  stratEnrichRow shouldSkipEmail getSkipReason
    (orchEnrichRow discovery peopleOutcome row fields emailColumn) cache row emailColumn

/-! ## Discovery agent (`src/lib/agent-architecture/agents/discovery-agent.ts`)

`runDiscoveryAgent` resolves a firmographic record (MCP first, then the
REST Explorium tool as fallback), feeds it to the web-research tool and
validates the JSON answer with the zod `CompanyAnalysisResult` schema.
The REST tool (`tools/explorium-tool.ts`) rethrows its failures; the MCP
tool returns a fallback record instead of throwing.  Outbound call
outcomes are passed in as `Except` values: `rest1` is the first REST
invocation of a run (the in-`try` fallback after an all-unknown MCP
answer, or the `catch` fallback after an MCP exception) and `rest2` the
second one (the `catch` fallback after the in-`try` REST call threw). -/

/-- Firmographic record shape shared by the Explorium tools; the REST v2
endpoint returns unvalidated JSON, so every field may be absent. -/
structure EnrichedCompany where
  company_name : Option String
  company_domain : Option String
  company_industry : Option String
  company_country : Option String
  company_competitors : Option (List String)
  deriving Repr, DecidableEq

/-- The all-unknown test on an MCP answer (lines 99-103): either no domain
and no name, or industry and country both the literal `unknown` with no
competitors (an empty competitor array counts, a missing one too). -/
def isUnknownMcp (m : EnrichedCompany) : Bool :=
  (falsyS m.company_domain && falsyS m.company_name) ||
  ((m.company_industry == some "unknown") && (m.company_country == some "unknown") &&
    (match m.company_competitors with
     | none => true
     | some l => l.isEmpty))

/-- Domain extraction by the regex matching a final at-sign followed by
one or more characters that are neither whitespace nor another at-sign. -/
def emailDomainRegex (email : String) : String :=
  let parts := strSplitOnChar '@' email
  if parts.length ≥ 2 then
    let last := parts.getLastD ""
    if last != "" && last.toList.all (fun c => !c.isWhitespace) then last else ""
  else ""

/-- Identity hints passed by the orchestrator from the row columns. -/
structure DiscoveryOptions where
  name : Option String
  linkedin_url : Option String
  url : Option String
  deriving Repr, DecidableEq

/-- Input record of the web-research tool. -/
structure WebResearchInput where
  company_name : String
  company_domain : String
  company_industry : String
  company_country : String
  company_competitors : List String
  deriving Repr, DecidableEq

/-- The MCP-then-REST resolution of lines 88-127: an MCP exception or an
all-unknown MCP answer falls back to the REST tool; a REST exception
inside the `try` is re-attempted once from the `catch`; a failing `catch`
attempt propagates. -/
def discoveryEnriched (mcp : Except String EnrichedCompany)
    (rest1 rest2 : Except String EnrichedCompany) : Except String EnrichedCompany :=
  match mcp with
  | .error _ => rest1
  | .ok m =>
    if isUnknownMcp m then
      match rest1 with
      | .ok r => .ok r
      | .error _ => rest2
    else .ok m

/-- The web-research input built at lines 130-137 from the resolved record,
the row hints and the email-derived domain. -/
def mkWebResearchInput (enriched : EnrichedCompany) (options : DiscoveryOptions)
    (domain : String) : WebResearchInput :=
  { company_name := jsOrChain [enriched.company_name, options.name] domain,
    company_domain := jsOrChain [enriched.company_domain] domain,
    company_industry := jsOrChain [enriched.company_industry] "unknown",
    company_country := jsOrChain [enriched.company_country] "unknown",
    company_competitors := enriched.company_competitors.getD [] }

/-! Zod validation of the web-research answer (`CompanyAnalysisResult`,
discovery-agent.ts lines 7-67).  URL validity of `source_url` is
approximated by an `http(s)://` scheme prefix; the concrete values the
theorems evaluate are either schemeful URLs or outright non-strings. -/

/-- Parse a required string. -/
def zodString (v : JsValue) : Except String String :=
  match v with
  | .str s => .ok s
  | _ => .error "expected string"

/-- Parse a required number. -/
def zodNumber (v : JsValue) : Except String Int :=
  match v with
  | .num n => .ok n
  | _ => .error "expected number"

/-- Parse `z.union([z.string(), z.number()]).transform(String)`. -/
def zodStringOrNumber (v : JsValue) : Except String String :=
  match v with
  | .str s => .ok s
  | .num n => .ok (toString n)
  | _ => .error "expected string or number"

/-- Parse the signal category enum and map English variants to
Portuguese (lines 12-27). -/
def zodCategory (v : JsValue) : Except String String :=
  match v with
  | .str s =>
    if ["organizacional", "pessoal", "mercado", "performance"].contains s then .ok s
    else if s == "organizational" then .ok "organizacional"
    else if s == "market" then .ok "mercado"
    else if s == "personal" then .ok "pessoal"
    else .error "invalid category"
  | _ => .error "expected string"

/-- Parse the confidence enum. -/
def zodConfidence (v : JsValue) : Except String String :=
  match v with
  | .str s =>
    if ["high", "medium", "low"].contains s then .ok s
    else .error "invalid confidence"
  | _ => .error "expected string"

/-- Parse a string that must look like a URL. -/
def zodUrl (v : JsValue) : Except String String :=
  match v with
  | .str s =>
    if strStartsWith s "http://" || strStartsWith s "https://" then .ok s
    else .error "invalid url"
  | _ => .error "expected string"

/-- Field access during object validation: a missing required key fails. -/
def zodField (v : JsValue) (k : String) : Except String JsValue :=
  match v with
  | .obj fs =>
    match lookupJs fs k with
    | some x => .ok x
    | none => .error ("missing field " ++ k)
  | _ => .error "expected object"

/-- Parse one element of `priority_signals` against the `Signal` schema. -/
def zodParseSignal (v : JsValue) : Except String PrioritySignal := do
  let signal_id ← zodStringOrNumber (← zodField v "signal_id")
  let signal_name ← zodString (← zodField v "signal_name")
  let category ← zodCategory (← zodField v "category")
  let weight ← zodStringOrNumber (← zodField v "weight")
  let date ← zodString (← zodField v "date")
  let title ← zodString (← zodField v "title")
  let description ← zodString (← zodField v "description")
  let source_url ← zodUrl (← zodField v "source_url")
  let confidence ← zodConfidence (← zodField v "confidence")
  let recommended_action ← zodString (← zodField v "recommended_action")
  let copy_angle ← zodString (← zodField v "copy_angle")
  pure ⟨signal_id, signal_name, category, weight, date, title, description,
        source_url, confidence, recommended_action, copy_angle⟩

/-- Parse an array of signals. -/
def zodParseSignals (v : JsValue) : Except String (List PrioritySignal) :=
  match v with
  | .arr xs => xs.mapM zodParseSignal
  | _ => .error "expected array"

/-- Parse the `signals_by_category` union (lines 48-63): an object whose
listed Portuguese (or English) keys are numbers when present, extra keys
passing through, or any record with number values. -/
def zodParseSignalsByCategory (v : JsValue) : Except String (List (String × JsValue)) :=
  match v with
  | .obj fs =>
    let numericIfPresent := fun (keys : List String) =>
      keys.all (fun k =>
        match lookupJs fs k with
        | some (.num _) => true
        | some _ => false
        | none => true)
    let allNumeric := fs.all (fun p =>
      match p.2 with
      | .num _ => true
      | _ => false)
    if numericIfPresent ["organizacional", "pessoal", "mercado", "performance"] ||
       numericIfPresent ["organizational", "personal", "market", "performance"] ||
       allNumeric then
      .ok fs
    else .error "invalid signals_by_category"
  | _ => .error "expected object"

/-- Parse an array of strings (`personalization_hooks`). -/
def zodParseStringArray (v : JsValue) : Except String (List String) :=
  match v with
  | .arr xs => xs.mapM zodString
  | _ => .error "expected array"

/-- Parse the `company_analysis` object (lines 40-66). -/
def zodParseCompanyAnalysis (v : JsValue) : Except String CompanyAnalysis := do
  let company_name ← zodString (← zodField v "company_name")
  let search_date ← zodString (← zodField v "search_date")
  let data_freshness ← zodString (← zodField v "data_freshness")
  let overall_signal_strength ← zodConfidence (← zodField v "overall_signal_strength")
  let priority_signals ← zodParseSignals (← zodField v "priority_signals")
  let total_signals_found ← zodNumber (← zodField v "total_signals_found")
  let signals_by_category ← zodParseSignalsByCategory (← zodField v "signals_by_category")
  let key_insights ← zodString (← zodField v "key_insights")
  let personalization_hooks ← zodParseStringArray (← zodField v "personalization_hooks")
  pure ⟨company_name, search_date, data_freshness, overall_signal_strength,
        priority_signals, total_signals_found, signals_by_category,
        key_insights, personalization_hooks⟩

/-- Parse the top-level `CompanyAnalysisResult` wrapper (lines 39-67). -/
def zodParseCompanyAnalysisResult (v : JsValue) : Except String CompanyAnalysis := do
  zodParseCompanyAnalysis (← zodField v "company_analysis")

/-- The outbound-call environment of one `runDiscoveryAgent` run. -/
structure DiscoveryEnv where
  mcp : Except String EnrichedCompany
  rest1 : Except String EnrichedCompany
  rest2 : Except String EnrichedCompany
  webResearch : WebResearchInput → Except String JsValue

/-- Model of `runDiscoveryAgent` (lines 69-143): resolve the firmographic
record, call the web-research tool on the derived input, and validate the
JSON result with the zod schema.  Every failure (`Except.error`) is an
exception escaping to the orchestrator. -/
def runDiscoveryAgent (env : DiscoveryEnv) (email : String)
    (options : DiscoveryOptions) : Except String CompanyAnalysis := do
  let domain := emailDomainRegex email
  let enriched ← discoveryEnriched env.mcp env.rest1 env.rest2
  let json ← env.webResearch (mkWebResearchInput enriched options domain)
  zodParseCompanyAnalysisResult json

/-! ## Web-research tool post-processing

The web-research tool collects news items, asks the LLM for a JSON
`company_analysis` and then post-processes the signals in plain code
(weight adjustment, sentiment, cross-source confidence, capping at 7,
momentum, per-category counts, pattern detection, sector trends).  The
LLM answer's signal list is modelled structurally; absent JSON properties
are `Option.none`.  `Date.parse` and `Date.now` are passed in as
`parseDateMs` (milliseconds since epoch, `none` for an unparseable
string) and `nowMs`. -/

/-- One fetched news item. -/
structure NewsItem where
  title : String
  url : String
  publishedAt : Option String
  deriving Repr, DecidableEq

/-- One raw signal as it arrives from the LLM JSON, before post-processing
(every property may be absent). -/
structure SigIn where
  signal_id : Option String
  signal_name : Option String
  category : Option String
  weight : Option String
  date : Option String
  title : Option String
  description : Option String
  source_url : Option String
  confidence : Option String
  recommended_action : Option String
  copy_angle : Option String
  deriving Repr, DecidableEq

/-- JavaScript `Number(...)` restricted to the weight strings this code
produces: a non-empty digit string parses, anything else (including the
literal `NaN` weight) is `NaN`, modelled as `none`. -/
def jsNumber (s : String) : Option Int :=
  (digitsToNat? s).map Int.ofNat

/-- Model of `daysAgo` (lines 57-63): 9999 for a missing or unparseable
date, else the floor of the elapsed milliseconds over one day. -/
def daysAgoM (parseDateMs : String → Option Int) (nowMs : Int)
    (d : Option String) : Int :=
  match d with
  | none => 9999
  | some s =>
    match parseDateMs s with
    | none => 9999
    | some t => Int.fdiv (nowMs - t) 86400000

/-- Keywords of `classifyCategory` (lines 65-71), per category. -/
def organizationalKeywords : List String :=
  ["funding", "investimento", "rodada", "series a", "series b", "ipo",
   "contrataç", "vagas", "novo vp", "diretor", "lançamento", "feature",
   "expansão", "novo escritório", "nova sede"]

/-- Market keywords of `classifyCategory`. -/
def marketKeywords : List String :=
  ["regulat", "bcb", "anvisa", "diário oficial", "concorrent", "fusões",
   "aquisições", "parceria", "evento", "conferência", "sympla", "eventbrite"]

/-- Performance keywords of `classifyCategory`. -/
def performanceKeywords : List String :=
  ["case", "depoimento", "press release", "blog", "whitepaper", "redesign",
   "branding", "g2", "glassdoor", "reclame aqui"]

/-- Model of `classifyCategory`. -/
def classifyCategory (title : String) : String :=
  let t := strToLower title
  if organizationalKeywords.any (strContains t) then "organizacional"
  else if marketKeywords.any (strContains t) then "mercado"
  else if performanceKeywords.any (strContains t) then "performance"
  else "mercado"

/-- Model of `baseWeight` (lines 73-79). -/
def baseWeight (title : String) : String :=
  let t := strToLower title
  if ["funding", "investimento", "rodada", "series a", "series b", "ipo",
      "mudança regulat"].any (strContains t) then "5"
  else if ["contrataç", "vagas", "lançamento", "feature", "concorrente",
      "m&a", "parceria"].any (strContains t) then "4"
  else if ["evento", "expansão", "novo escritório", "nova sede", "reviews",
      "glassdoor", "reclame aqui"].any (strContains t) then "3"
  else "2"

/-- Positive keywords of `analyzeSentiment` (line 97). -/
def positiveKeywords : List String :=
  ["recorde", "crescimento", "contrataç", "funding", "investimento",
   "parceria", "melhoria", "lançamento", "expansão", "aquisição",
   "premiado", "contrato", "ganhou", "aumento"]

/-- Negative keywords of `analyzeSentiment` (line 98). -/
def negativeKeywords : List String :=
  ["demiss", "queda", "processo", "crise", "falha", "vazamento", "recall",
   "investiga", "fraude", "problema", "atraso", "multado", "perda",
   "redução", "encerramento", "fechamento", "reclame aqui",
   "reviews negativos"]

/-- Model of `analyzeSentiment` (lines 95-102): negatives first. -/
def analyzeSentiment (text : String) : String :=
  let t := strToLower text
  if negativeKeywords.any (strContains t) then "negative"
  else if positiveKeywords.any (strContains t) then "positive"
  else "neutral"

/-- Model of `detectPatterns` (lines 104-120). -/
def detectPatterns (signals : List SigIn) : List String :=
  let titleHas := fun (kws : List String) =>
    signals.any (fun s => kws.any (strContains (strToLower (s.title.getD ""))))
  let hasFunding := titleHas ["funding", "investimento", "rodada", "series a",
    "series b", "ipo"]
  let hasHiring := titleHas ["contrataç", "vagas", "hiring"]
  let hasExpansion := titleHas ["expansão", "novo escritório", "nova sede", "mercado"]
  let hasPartnership := titleHas ["parceria", "aliança", "joint venture"]
  if hasFunding && hasHiring && hasExpansion then
    ["Momentum estratégico: funding + contratações + expansão em janela recente."]
  else if hasFunding && hasHiring then
    ["Crescimento acelerado: funding acompanhado de abertura de vagas."]
  else if hasFunding && hasExpansion then
    ["Escala: funding seguido por expansão geográfica/estrutura."]
  else if hasExpansion && hasPartnership then
    ["Go-to-market: expansão apoiada por parceria estratégica."]
  else []

/-- Model of `momentumScore` (lines 81-93) over post-processed signals:
the score is `NaN` (`none`) as soon as one weight fails to parse, and a
`NaN` score falls through both thresholds to `low`. -/
def momentumScore (parseDateMs : String → Option Int) (nowMs : Int)
    (signals : List SigIn) : String :=
  let score : Option Int := signals.foldl (fun acc s =>
    let w := jsNumber (match s.weight with
      | some ws => if ws == "" then "1" else ws
      | none => "1")
    let rec_ := daysAgoM parseDateMs nowMs s.date
    match acc, w with
    | some a, some wv => some (a + wv + (if rec_ ≤ 30 then 2 else 0))
    | _, _ => none) (some 0)
  match score with
  | some sc => if sc ≥ 20 then "high" else if sc ≥ 10 then "medium" else "low"
  | none => "low"

/-- Whitespace collapsing of `replace(whitespace-runs, one space)` followed
by `trim`. -/
def collapseWs (s : String) : String :=
  joinWith " " (wordsOf s)

/-- Model of `computeConfidence` (lines 383-395): count news items whose
lower-cased title contains the first five words of the signal title; three
or more matches are `high`, exactly two `medium`, else `low`. -/
def computeConfidence (allNews : List NewsItem) (title : String) : String :=
  let t := collapseWs (strToLower title)
  let firstFive := joinWith " " ((strSplitOnChar ' ' t).take 5)
  let matchCount := (allNews.filter (fun n =>
    let nt := strToLower n.title
    nt != "" && t != "" && strContains nt firstFive)).length
  if matchCount ≥ 3 then "high"
  else if matchCount == 2 then "medium"
  else "low"

/-- Post-processing of one signal (lines 397-417): recency-adjusted weight
clamped to 1..5 (`NaN` propagates as the string `NaN`), sentiment-driven
recommended action and default copy angle, cross-source confidence. -/
def enrichOneSignal (parseDateMs : String → Option Int) (nowMs : Int)
    (allNews : List NewsItem) (s : SigIn) : SigIn :=
  let titleForWeight := jsOrChain [s.title, s.signal_name] ""
  let baseWStr := match s.weight with
    | some w => if w == "" then baseWeight titleForWeight else w
    | none => baseWeight titleForWeight
  let baseW := jsNumber baseWStr
  let recDays := daysAgoM parseDateMs nowMs s.date
  let newWeight := match baseW with
    | none => "NaN"
    | some b => toString (max 1 (min 5 (b + (if recDays ≤ 30 then 1 else 0))))
  let sentiment := analyzeSentiment ((s.title.getD "") ++ " " ++ (s.description.getD ""))
  let copyAngle0 := s.copy_angle.getD ""
  let recommendedAction :=
    if sentiment == "negative" then "consultiva"
    else if sentiment == "positive" then "relacional"
    else "educativa"
  let copyAngle :=
    if sentiment == "negative" then
      (if copyAngle0 == "" then
        "Abordagem consultiva para mitigar riscos e apoiar reorganização." else copyAngle0)
    else if sentiment == "positive" then
      (if copyAngle0 == "" then
        "Conectar oferta com crescimento recente e próximos passos." else copyAngle0)
    else
      (if copyAngle0 == "" then
        "Educar sobre oportunidades alinhadas ao cenário atual." else copyAngle0)
  let confidence := computeConfidence allNews (jsOrChain [s.title, s.signal_name] "")
  { s with weight := some newWeight,
           recommended_action := some recommendedAction,
           copy_angle := some copyAngle,
           confidence := some confidence }

/-- Sector-trend keywords (line 434). -/
def trendKeywords : List String :=
  ["open banking", "pix", "ia generativa", "lgpd", "open finance",
   "pagamentos instantâneos", "telemedicina", "esg", "carbono",
   "onboarding digital", "compliance"]

/-- Model of the sector-trend extraction (lines 433-442): first-mention
order over the news titles, at most six. -/
def sectorTrends (allNews : List NewsItem) : List String :=
  (allNews.foldl (fun acc n =>
    let t := strToLower n.title
    trendKeywords.foldl (fun acc2 kw =>
      if strContains t kw && !acc2.contains kw then acc2 ++ [kw] else acc2) acc) []).take 6

/-- The `company_analysis` object of the LLM answer, as read by the
post-processing step (`priority_signals` is `none` when absent or not an
array, in which case an empty list is used). -/
structure CAIn where
  key_insights : Option String
  priority_signals : Option (List SigIn)
  deriving Repr, DecidableEq

/-- The fields written back by the post-processing step. -/
structure CAOut where
  priority_signals : List SigIn
  total_signals_found : Nat
  overall_signal_strength : String
  signals_by_category : List (String × Nat)
  key_insights : String
  sector_trends : List String
  deriving Repr, DecidableEq

/-- The effective category of a post-processed signal when counting
(`String(s.category || classifyCategory(String(s.title || '')))`). -/
def effectiveCategory (s : SigIn) : String :=
  jsOrChain [s.category] (classifyCategory (s.title.getD ""))

/-- Model of the successful web-research post-processing (lines 378-445):
enrich each signal, keep the first seven, recompute the totals, momentum,
per-category counts (only the three initialised categories are counted),
key insights with detected patterns appended, and sector trends. -/
def postProcessAnalysis (parseDateMs : String → Option Int) (nowMs : Int)
    (allNews : List NewsItem) (ca : CAIn) : CAOut :=
  let signals := ca.priority_signals.getD []
  let enriched := signals.map (enrichOneSignal parseDateMs nowMs allNews)
  let countCat := fun (k : String) =>
    (enriched.filter (fun s => effectiveCategory s == k)).length
  let patterns := detectPatterns enriched
  let kiBase := ca.key_insights.getD ""
  let ki := strTrim (joinWith " " (([kiBase] ++ patterns).filter (fun w => w != "")))
  { priority_signals := enriched.take 7,
    total_signals_found := enriched.length,
    overall_signal_strength := momentumScore parseDateMs nowMs enriched,
    signals_by_category :=
      [("organizacional", countCat "organizacional"),
       ("mercado", countCat "mercado"),
       ("performance", countCat "performance")],
    key_insights := ki,
    sector_trends := sectorTrends allNews }

/-! ## Snov adapter request helpers (`tools/snov-tool.ts`)

`snovPost` and `snovGet` (lines 57-132) are identical retry loops over
`fetch`: a 429 status backs off `min(1500 * attempt, 5000)` milliseconds,
any other failed response or thrown fetch (including a JSON body that
fails to parse) backs off `400 * attempt`, and one shared `attempts`
counter is capped at `maxAttempts = 4`; when the cap is reached the last
error is thrown.  The response stream is indexed by fetch count, which
coincides with the attempt counter. -/

/-- One HTTP response as observed by the retry loops: a 2xx answer with a
parsed body, a non-2xx status code, or a thrown fetch/body error. -/
inductive HttpResp (α : Type) where
  | ok (v : α)
  | status (code : Nat)
  | netErr
  deriving Repr, DecidableEq

/-- Whether a response is a usable 2xx answer. -/
def isOkResp {α : Type} : HttpResp α → Bool
  | .ok _ => true
  | _ => false

/-- Whether a response is a 429. -/
def is429 {α : Type} : HttpResp α → Bool
  | .status c => c == 429
  | _ => false

/-- Backoff delay charged after the failed attempt numbered `k` (0-based):
the source computes it from the already-incremented counter `k + 1`. -/
def delayFor {α : Type} (resps : Nat → HttpResp α) (k : Nat) : Nat :=
  if is429 (resps k) then min (1500 * (k + 1)) 5000 else 400 * (k + 1)

/-- The shared retry loop body of `snovPost`/`snovGet`: `attempts` is the
current counter value, the remaining budget is `maxAttempts - attempts`.
Returns the outcome (`Except.error` models the final `throw`), the backoff
delays slept in order, and the total number of fetches issued. -/
def snovLoop {α : Type} (resps : Nat → HttpResp α) :
    Nat → Nat → (Except Unit α) × (List Nat × Nat)
  | attempts, 0 => (.error (), ([], attempts))
  | attempts, budget + 1 =>
    match resps attempts with
    | .ok v => (.ok v, ([], attempts + 1))
    | .status c =>
        let d := if c == 429 then min (1500 * (attempts + 1)) 5000
          else 400 * (attempts + 1)
        let r := snovLoop resps (attempts + 1) budget
        (r.1, (d :: r.2.1, r.2.2))
    | .netErr =>
        let r := snovLoop resps (attempts + 1) budget
        (r.1, (400 * (attempts + 1) :: r.2.1, r.2.2))

/-- Model of `snovPost` (lines 57-94): the loop started at zero attempts
with a cap of four. -/
def snovPost {α : Type} (resps : Nat → HttpResp α) :
    (Except Unit α) × (List Nat × Nat) :=
  snovLoop resps 0 4

/-- Model of `snovGet` (lines 97-132): the same loop, duplicated in the
source with the same cap and delays. -/
def snovGet {α : Type} (resps : Nat → HttpResp α) :
    (Except Unit α) × (List Nat × Nat) :=
  snovLoop resps 0 4

/-! ## Snov company tool (`createSnovTool.execute`, lines 161-244) -/

/-- A Snov prospect record (optional fields of `ProspectSchema`). -/
structure SnovProspect where
  first_name : Option String
  last_name : Option String
  position : Option String
  phone : Option String
  email : Option String
  linkedin : Option String
  deriving Repr, DecidableEq

/-- The company payload of a domain-search result, with the emails and
prospects arrays read off the same raw object.  `CompanySchema` (all
fields optional, passthrough) accepts any such record, so schema
validation is the identity here. -/
structure SnovCompanyRaw where
  company_name : Option String
  emails : List String
  prospects : List SnovProspect
  deriving Repr, DecidableEq

/-- The `start` answer of the v2 domain search: an optional
`meta.task_hash` and an optional `links.result` URL whose last path
segment is the fallback hash. -/
structure SnovStartResp where
  meta_task_hash : Option String
  links_result : Option String
  deriving Repr, DecidableEq

/-- One poll answer: `data` is `none` when absent or empty (the
`Object.keys(res.data).length > 0` break condition). -/
structure SnovPollResp where
  data : Option SnovCompanyRaw
  deriving Repr, DecidableEq

/-- The return shape of the Snov tool: on any failure only
`has_data: false` is returned, so every other field is optional. -/
structure SnovResult where
  has_data : Bool
  company : Option SnovCompanyRaw
  emails_count : Option Nat
  technologies : Option (List String)
  prospects : Option (List SnovProspect)
  deriving Repr, DecidableEq

/-- The failure sentinel of the Snov tool. -/
def snovNoData : SnovResult :=
  { has_data := false, company := none, emails_count := none,
    technologies := none, prospects := none }

/-- Strip one leading URL scheme (the anchored `https?` replace). -/
def stripScheme (s : String) : String :=
  if strStartsWith s "https://" then strDrop s 8
  else if strStartsWith s "http://" then strDrop s 7
  else s

/-- The task hash of a start answer: prefer `meta.task_hash`, else the
last segment of `links.result`. -/
def snovTaskHash (st : SnovStartResp) : Option String :=
  jsOrS st.meta_task_hash
    (match st.links_result with
     | some l => (strSplitOnChar '/' l).getLast?
     | none => none)

/-- The poll loop (lines 196-208): up to five polls, stopping at the first
answer with non-empty data; a thrown `snovGet` escapes to the outer catch. -/
def snovPollLoop (polls : Nat → Except Unit SnovPollResp) :
    Nat → Except Unit (Option SnovCompanyRaw)
  | 0 => .ok none
  | budget + 1 =>
    match polls (5 - (budget + 1)) with
    | .error _ => .error ()
    | .ok res =>
      match res.data with
      | some d => .ok (some d)
      | none => snovPollLoop polls budget

/-- Model of `createSnovTool.execute` (lines 169-242): clean the domain,
obtain a token (`none` on OAuth failure), start a domain search, poll for
results, and assemble the answer; every failure path—empty domain, missing
token, a thrown request, a missing task hash, no data after five
polls—returns the `has_data: false` sentinel instead of throwing or
returning null. -/
def snovToolExecute (token : Option String) (start : Except Unit SnovStartResp)
    (polls : Nat → Except Unit SnovPollResp) (domain : String) : SnovResult :=
  let cleanDomain := strTrim (stripWww (stripScheme domain))
  if cleanDomain == "" then snovNoData
  else
    match token with
    | none => snovNoData
    | some _ =>
      match start with
      | .error _ => snovNoData
      | .ok st =>
        match snovTaskHash st with
        | none => snovNoData
        | some th =>
          if th == "" then snovNoData
          else
            match snovPollLoop polls 5 with
            | .error _ => snovNoData
            | .ok none => snovNoData
            | .ok (some companyRaw) =>
              let emailsCount := companyRaw.emails.length
              let prospects := companyRaw.prospects
              { has_data := !falsyS companyRaw.company_name ||
                  emailsCount > 0 || prospects.length > 0,
                company := some companyRaw,
                emails_count := some emailsCount,
                technologies := some [],
                prospects := some prospects }

/-! ## Apollo company tool (`createApolloTool.execute`, lines 13-118)

The execute loop tries three endpoints; per endpoint, two header variants
and then a body-credential variant until a 2xx response arrives, reading
the first item of the first non-empty collection field.  A thrown fetch
lands in the catch; both the catch and the no-record path return a minimal
fallback record, never null.  The fetch stream is indexed by issue order. -/

/-- One fetch outcome for the Apollo tools. -/
inductive FetchRes (α : Type) where
  | ok (v : α)
  | bad
  | crash
  deriving Repr, DecidableEq

/-- Whether a fetch outcome is a usable 2xx response. -/
def isOkFetch {α : Type} : FetchRes α → Bool
  | .ok _ => true
  | _ => false

/-- A raw Apollo organization record (the properties read at lines 88-97). -/
structure ApolloRecordRaw where
  name : Option String
  website_url : Option String
  domain : Option String
  industry : Option String
  primary_industry : Option String
  country : Option String
  country_code : Option String
  top_competitors : Option (List String)
  linkedin_url : Option String
  linkedin : Option String
  linkedin_company_url : Option String
  deriving Repr, DecidableEq

/-- An Apollo search response body: the item collections probed at line 79
(`organizations || companies || data || results || []`). -/
structure ApolloJson where
  organizations : Option (List ApolloRecordRaw)
  companies : Option (List ApolloRecordRaw)
  data : Option (List ApolloRecordRaw)
  results : Option (List ApolloRecordRaw)
  deriving Repr, DecidableEq

/-- First item of the first present collection (`items[0]`): a present but
empty array is truthy in JavaScript and still wins the `||` chain. -/
def apolloFirstItem (j : ApolloJson) : Option ApolloRecordRaw :=
  let items := match j.organizations with
    | some l => l
    | none => match j.companies with
      | some l => l
      | none => match j.data with
        | some l => l
        | none => match j.results with
          | some l => l
          | none => []
  items.head?

/-- One endpoint's fetch sequence (lines 56-74): header variant, second
header variant, then the body-credential fallback; a crash at any point is
the thrown exception. -/
def apolloFetchEndpoint (fetches : Nat → FetchRes ApolloJson) (i : Nat) :
    Except Unit (Option ApolloJson × Nat) :=
  match fetches i with
  | .crash => .error ()
  | .ok j => .ok (some j, i + 1)
  | .bad =>
    match fetches (i + 1) with
    | .crash => .error ()
    | .ok j => .ok (some j, i + 2)
    | .bad =>
      match fetches (i + 2) with
      | .crash => .error ()
      | .ok j => .ok (some j, i + 3)
      | .bad => .ok (none, i + 3)

/-- The endpoint loop (lines 55-86): stop at the first response whose body
yields a first item. -/
def apolloFindRecord (fetches : Nat → FetchRes ApolloJson) :
    Nat → Nat → Except Unit (Option ApolloRecordRaw)
  | 0, _ => .ok none
  | endpointsLeft + 1, i =>
    match apolloFetchEndpoint fetches i with
    | .error _ => .error ()
    | .ok (none, i2) => apolloFindRecord fetches endpointsLeft i2
    | .ok (some j, i2) =>
      match apolloFirstItem j with
      | some r => .ok (some r)
      | none => apolloFindRecord fetches endpointsLeft i2

/-- The normalized Apollo company answer; the fallback paths do not carry
a `linkedin_url` property, hence the `Option`. -/
structure ApolloCompanyOut where
  company_name : String
  company_domain : String
  company_industry : String
  company_country : String
  company_competitors : List String
  linkedin_url : Option String
  deriving Repr, DecidableEq

/-- The minimal fallback record (lines 101-107 and 110-116): built from
the input hints alone with `unknown` placeholders. -/
def apolloFallback (name domain : Option String) : ApolloCompanyOut :=
  { company_name := name.getD (domain.getD ""),
    company_domain := domain.getD "",
    company_industry := "unknown",
    company_country := "unknown",
    company_competitors := [],
    linkedin_url := none }

/-- Model of `createApolloTool.execute`: the codomain is `Option` so that
the JavaScript value `null` is expressible, and the function never
produces it—every failure path returns the fallback record. -/
def apolloExecute (fetches : Nat → FetchRes ApolloJson)
    (name domain : Option String) : Option ApolloCompanyOut :=
  match apolloFindRecord fetches 3 0 with
  | .error _ => some (apolloFallback name domain)
  | .ok none => some (apolloFallback name domain)
  | .ok (some r) =>
    some { company_name := jsOrChain [r.name, name, domain] "",
           company_domain := jsOrChain [r.website_url, r.domain, domain] "",
           company_industry := jsOrChain [r.industry, r.primary_industry] "unknown",
           company_country := jsOrChain [r.country, r.country_code] "unknown",
           company_competitors := r.top_competitors.getD [],
           linkedin_url :=
             some (jsOrChain [r.linkedin_url, r.linkedin, r.linkedin_company_url] "") }

/-! ## Apollo person-match tool (`createApolloPersonMatchTool.execute`,
lines 218-267): the one adapter that really answers `null` on failure. -/

/-- A raw person payload (`json.person || json.data`). -/
structure ApolloPersonRaw where
  name : Option String
  first_name : Option String
  last_name : Option String
  title : Option String
  linkedin_url : Option String
  linkedin : Option String
  email : Option String
  deriving Repr, DecidableEq

/-- The person-match response body. -/
structure ApolloPersonJson where
  person : Option ApolloPersonRaw
  data : Option ApolloPersonRaw
  deriving Repr, DecidableEq

/-- The normalized person answer (the fields the claims observe). -/
structure ApolloPersonOut where
  name : String
  title : Option String
  linkedin_url : Option String
  email : String
  deriving Repr, DecidableEq

/-- Model of `createApolloPersonMatchTool.execute`: `null` on a non-2xx
response, a thrown fetch, or an empty body; otherwise the normalized
person. -/
def apolloPersonMatch (fetch : FetchRes ApolloPersonJson)
    (email : String) : Option ApolloPersonOut :=
  match fetch with
  | .crash => none
  | .bad => none
  | .ok j =>
    match (match j.person with
           | some p => some p
           | none => j.data) with
    | none => none
    | some p =>
      some { name := jsOrChain [p.name]
               (strTrim (joinWith " "
                 ([p.first_name, p.last_name].filterMap nonEmptyOpt))),
             title := p.title,
             linkedin_url := jsOrS p.linkedin_url (jsOrS p.linkedin none),
             email := jsOrChain [p.email] email }

/-! ## Helper lemmas about the strategy cache -/

theorem cacheGet_set_self (c : DomainCache) (k : String) (v : Enrichments) :
    cacheGet (cacheSet c k v) k = some v := by
  simp [cacheGet, cacheSet]

theorem cacheGet_set_ne (c : DomainCache) (k k2 : String) (v : Enrichments)
    (h : k2 ≠ k) : cacheGet (cacheSet c k v) k2 = cacheGet c k2 := by
  simp only [cacheGet, cacheSet, List.find?]
  have hb : (k == k2) = false := by
    simp [beq_iff_eq]
    intro he
    exact h he.symm
  simp only [hb]
  induction c with
  | nil => simp
  | cons p rest ih =>
    by_cases hp : p.1 = k
    · have : (p.1 != k) = false := by simp [bne, hp]
      simp only [List.filter, this]
      have hpk2 : (p.1 == k2) = false := by
        simp [beq_iff_eq, hp]
        intro he
        exact h he.symm
      rw [ih]
      simp [List.find?, hpk2]
    · have : (p.1 != k) = true := by simp [bne, beq_iff_eq, hp]
      simp only [List.filter, this]
      simp only [List.find?]
      cases hpe : (p.1 == k2) with
      | true => rfl
      | false => exact ih

theorem filterNonNull_idem (e : Enrichments) :
    filterNonNull (filterNonNull e) = filterNonNull e := by
  simp [filterNonNull, List.filter_filter]

/-- Branch lemma: a row with a good email, not skipped, whose domain is
fresh in the cache, goes to the orchestrator and writes the filtered map. -/
theorem stratEnrichRow_miss (sk : String → Bool) (rs : String → String)
    (orch : RowEnrichmentResult) (c : DomainCache) (row : Row) (ec : String)
    (e d : String) (he : rowGet row ec = some e) (hne : e ≠ "")
    (hs : sk e = false) (hd1 : primaryDomain row ec = d) (hd : d ≠ "")
    (hc : cacheGet c d = none) :
    stratEnrichRow sk rs orch c row ec =
      ⟨{ orch with enrichments := filterNonNull orch.enrichments },
       cacheSet c d (filterNonNull orch.enrichments), true⟩ := by
  simp only [stratEnrichRow, he, hd1]
  have h1 : falsyS (some e) = false := by simpa [falsyS] using hne
  have h2 : (d != "") = true := by simpa [bne, beq_iff_eq] using hd
  simp [h1, h2, hs, hc]

/-- Branch lemma: a row with a good email, not skipped, whose domain is
already cached, answers from the cache without the orchestrator. -/
theorem stratEnrichRow_hit (sk : String → Bool) (rs : String → String)
    (orch : RowEnrichmentResult) (c : DomainCache) (row : Row) (ec : String)
    (e d : String) (m : Enrichments) (he : rowGet row ec = some e)
    (hne : e ≠ "") (hs : sk e = false) (hd1 : primaryDomain row ec = d)
    (hd : d ≠ "") (hc : cacheGet c d = some m) :
    stratEnrichRow sk rs orch c row ec =
      ⟨⟨0, row, filterNonNull m, .completed, none⟩, c, false⟩ := by
  simp only [stratEnrichRow, he, hd1]
  have h1 : falsyS (some e) = false := by simpa [falsyS] using hne
  have h2 : (d != "") = true := by simpa [bne, beq_iff_eq] using hd
  simp [h1, h2, hs, hc]

/-- A cache entry survives any strategy call: branches that do not reach
the orchestrator leave the cache alone, and the orchestrator branch can
only add an entry for a key that was previously absent. -/
theorem stratEnrichRow_cache_mono (sk : String → Bool) (rs : String → String)
    (orch : RowEnrichmentResult) (c : DomainCache) (row : Row) (ec : String)
    (d : String) (m : Enrichments) (h : cacheGet c d = some m) :
    cacheGet (stratEnrichRow sk rs orch c row ec).cache d = some m := by
  unfold stratEnrichRow
  dsimp only
  split
  · exact h
  · split
    · exact h
    · split
      · exact h
      · rename_i hnone
        by_cases hd : primaryDomain row ec != ""
        · simp only [hd, if_true]
          by_cases hdd : primaryDomain row ec = d
          · rw [hdd] at hnone hd
            rw [if_pos hd] at hnone
            rw [h] at hnone
            cases hnone
          · rw [cacheGet_set_ne _ _ _ _ (by intro hh; exact hdd hh.symm)]
            exact h
        · simp only [hd, if_false]
          exact h

/-- The orchestrator stamps every result with row index zero. -/
theorem orchEnrichRow_rowIndex (discovery : Except String CompanyAnalysis)
    (people : Option PeopleOutput) (row : Row) (fields : List EnrichmentField)
    (ec : String) : (orchEnrichRow discovery people row fields ec).rowIndex = 0 := by
  unfold orchEnrichRow
  dsimp only
  split
  · rfl
  · split <;> rfl

/-- C10.  Every `RowEnrichmentResult` returned by `AgentOrchestrator.enrichRow`
or by `AgentEnrichmentStrategy.enrichRow` (composed with the orchestrator it
delegates to) carries `rowIndex = 0`, whatever the row, the requested
fields, the cache state, the skip policy and the provider outcomes are;
assigning the true per-row index is left to the caller. -/
theorem rowIndex_always_zero (sk : String → Bool) (rs : String → String)
    (discovery : Except String CompanyAnalysis) (people : Option PeopleOutput)
    (cache : DomainCache) (row : Row) (fields : List EnrichmentField)
    (ec : String) :
    (orchEnrichRow discovery people row fields ec).rowIndex = 0 ∧
    (stratEnrichRowFull sk rs discovery people cache row fields ec).result.rowIndex = 0 := by
  refine ⟨orchEnrichRow_rowIndex discovery people row fields ec, ?_⟩
  unfold stratEnrichRowFull stratEnrichRow
  dsimp only
  split
  · rfl
  · split
    · rfl
    · split
      · rfl
      · exact orchEnrichRow_rowIndex discovery people row fields ec

/-- C4.  A row whose email matches the skip predicate comes back
`skipped`, with the skip reason in the `error` field, no orchestrator (and
hence no provider) call, and an untouched cache; the statement quantifies
over every cache state and orchestrator outcome, so the skip check is
independent of—and in the code prior to—the domain-cache lookup and any
provider work. -/
theorem skip_before_cache_and_providers (sk : String → Bool) (rs : String → String)
    (orch : RowEnrichmentResult) (c : DomainCache) (row : Row) (ec : String)
    (e : String) (he : rowGet row ec = some e) (hne : e ≠ "") (hs : sk e = true) :
    stratEnrichRow sk rs orch c row ec =
      ⟨⟨0, row, [], .skipped, some (rs e)⟩, c, false⟩ := by
  have h1 : falsyS (some e) = false := by simpa [falsyS] using hne
  simp [stratEnrichRow, he, h1, hs]

/-- Witness for C4 at a concrete webmail row. -/
theorem skip_before_cache_and_providers_witness :
    stratEnrichRow (fun e => strContains e "gmail.com") (fun _ => "Webmail domain")
      ⟨0, [], [], .completed, none⟩
      [("acme.com", [])] [("email", "jane@gmail.com")] "email" =
      ⟨⟨0, [("email", "jane@gmail.com")], [], .skipped, some "Webmail domain"⟩,
       [("acme.com", [])], false⟩ :=
  skip_before_cache_and_providers (fun e => strContains e "gmail.com")
    (fun _ => "Webmail domain") ⟨0, [], [], .completed, none⟩
    [("acme.com", [])] [("email", "jane@gmail.com")] "email" "jane@gmail.com"
    (by decide) (by decide) (by decide)

/-- C9 counterexample.  A row whose email has no at-sign and whose columns
carry no domain yields an empty `primaryDomain`; the orchestrator is
invoked, yet nothing is written to the domain cache, refuting the claim
that the filtered map is cached whenever the orchestrator call returns. -/
theorem domain_cache_not_written_without_domain :
    (stratEnrichRow (fun _ => false) (fun _ => "")
      ⟨0, [("email", "not-an-email")], [], .error, some "Unknown error"⟩
      [] [("email", "not-an-email")] "email").cache = [] ∧
    (stratEnrichRow (fun _ => false) (fun _ => "")
      ⟨0, [("email", "not-an-email")], [], .error, some "Unknown error"⟩
      [] [("email", "not-an-email")] "email").calledOrchestrator = true := by
  constructor <;> rfl

/-- C9 as amended.  When the row's normalized primary domain is non-empty
(and the email is present and not skipped, with the domain fresh in the
cache), the strategy always invokes the orchestrator, writes the filtered
enrichment map to the cache — the orchestrator outcome `orch1` is
unconstrained, so this includes an `error` status with an empty map — and
every later same-domain row is answered `completed` from that cached map
with no further orchestrator call. -/
theorem domain_cache_write_and_reuse (sk : String → Bool) (rs : String → String)
    (orch1 : RowEnrichmentResult) (c : DomainCache) (row1 row2 : Row)
    (ec : String) (e1 e2 d : String)
    (hd1 : primaryDomain row1 ec = d) (hd : d ≠ "")
    (he1 : rowGet row1 ec = some e1) (hne1 : e1 ≠ "") (hs1 : sk e1 = false)
    (hc : cacheGet c d = none)
    (hd2 : primaryDomain row2 ec = d)
    (he2 : rowGet row2 ec = some e2) (hne2 : e2 ≠ "") (hs2 : sk e2 = false) :
    (stratEnrichRow sk rs orch1 c row1 ec).calledOrchestrator = true ∧
    cacheGet (stratEnrichRow sk rs orch1 c row1 ec).cache d =
      some (filterNonNull orch1.enrichments) ∧
    (∀ orch2 : RowEnrichmentResult,
      stratEnrichRow sk rs orch2 (stratEnrichRow sk rs orch1 c row1 ec).cache row2 ec =
        ⟨⟨0, row2, filterNonNull orch1.enrichments, .completed, none⟩,
         (stratEnrichRow sk rs orch1 c row1 ec).cache, false⟩) := by
  have hm := stratEnrichRow_miss sk rs orch1 c row1 ec e1 d he1 hne1 hs1 hd1 hd hc
  rw [hm]
  refine ⟨rfl, cacheGet_set_self c d (filterNonNull orch1.enrichments), ?_⟩
  intro orch2
  have hh := stratEnrichRow_hit sk rs orch2
    (cacheSet c d (filterNonNull orch1.enrichments)) row2 ec e2 d
    (filterNonNull orch1.enrichments) he2 hne2 hs2 hd2 hd
    (cacheGet_set_self c d (filterNonNull orch1.enrichments))
  rw [hh, filterNonNull_idem]

/-- Witness for C9 as amended: the first row's orchestrator outcome is an
`error` status with an empty map, which is cached and replayed as
`completed` for the second same-domain row. -/
theorem domain_cache_write_and_reuse_witness :
    (stratEnrichRow (fun _ => false) (fun _ => "")
      ⟨0, [("email", "jane@acme.com")], [], .error, some "boom"⟩
      [] [("email", "jane@acme.com")] "email").calledOrchestrator = true ∧
    cacheGet (stratEnrichRow (fun _ => false) (fun _ => "")
      ⟨0, [("email", "jane@acme.com")], [], .error, some "boom"⟩
      [] [("email", "jane@acme.com")] "email").cache "acme.com" = some [] ∧
    (∀ orch2 : RowEnrichmentResult,
      stratEnrichRow (fun _ => false) (fun _ => "") orch2
        (stratEnrichRow (fun _ => false) (fun _ => "")
          ⟨0, [("email", "jane@acme.com")], [], .error, some "boom"⟩
          [] [("email", "jane@acme.com")] "email").cache
        [("email", "bob@acme.com")] "email" =
        ⟨⟨0, [("email", "bob@acme.com")], [], .completed, none⟩,
         (stratEnrichRow (fun _ => false) (fun _ => "")
           ⟨0, [("email", "jane@acme.com")], [], .error, some "boom"⟩
           [] [("email", "jane@acme.com")] "email").cache, false⟩) :=
  domain_cache_write_and_reuse (fun _ => false) (fun _ => "")
    ⟨0, [("email", "jane@acme.com")], [], .error, some "boom"⟩ []
    [("email", "jane@acme.com")] [("email", "bob@acme.com")] "email"
    "jane@acme.com" "bob@acme.com" "acme.com"
    (by decide) (by decide) (by decide) (by decide) (by decide) (by decide)
    (by decide) (by decide) (by decide) (by decide)

/-- Once a row's domain is cached, a strategy call for any row with that
domain never reaches the orchestrator, leaves the cache unchanged, and
answers with a key set inside the cached map's (the error and skip
branches answer with an empty map, the hit branch with the filtered
cached map). -/
theorem stratEnrichRow_no_invoke_when_cached (sk : String → Bool)
    (rs : String → String) (orch : RowEnrichmentResult) (c : DomainCache)
    (row : Row) (ec : String) (d : String) (m : Enrichments)
    (hd : primaryDomain row ec = d) (hdne : d ≠ "")
    (hc : cacheGet c d = some m) :
    (stratEnrichRow sk rs orch c row ec).calledOrchestrator = false ∧
    (stratEnrichRow sk rs orch c row ec).cache = c ∧
    (stratEnrichRow sk rs orch c row ec).result.enrichments.map (fun p => p.1) ⊆
      m.map (fun p => p.1) := by
  unfold stratEnrichRow
  dsimp only
  rw [hd]
  have h2 : (d != "") = true := by simpa [bne, beq_iff_eq] using hdne
  simp only [h2, if_true]
  split
  · exact ⟨rfl, rfl, by intro x hx; cases hx⟩
  · split
    · exact ⟨rfl, rfl, by intro x hx; cases hx⟩
    · rw [hc]
      refine ⟨rfl, rfl, ?_⟩
      intro x hx
      rcases List.mem_map.mp hx with ⟨p, hp, rfl⟩
      exact List.mem_map.mpr ⟨p, List.mem_of_mem_filter hp, rfl⟩

/-- Any later row whose domain is already cached with map `m` never
invokes the orchestrator and answers inside the cached key set, whatever
rows come in between. -/
theorem processRows_cached_row (sk : String → Bool) (rs : String → String)
    (orch : Row → RowEnrichmentResult) (ec : String) (d : String) (m : Enrichments)
    (rows : List Row) (c : DomainCache) (hc : cacheGet c d = some m)
    (i : Nat) (r : Row) (hr : rows.get? i = some r)
    (hd2 : primaryDomain r ec = d) (hdne : d ≠ "") :
    ∃ res : RowEnrichmentResult,
      (processRows sk rs orch c rows ec).1.get? i = some (res, false) ∧
      res.enrichments.map (fun p => p.1) ⊆ m.map (fun p => p.1) := by
  induction rows generalizing c i with
  | nil => simp at hr
  | cons head tail ih =>
    cases i with
    | zero =>
      simp only [List.get?] at hr
      cases hr
      have hh := stratEnrichRow_no_invoke_when_cached sk rs (orch r) c r ec d m
        hd2 hdne hc
      refine ⟨(stratEnrichRow sk rs (orch r) c r ec).result, ?_, hh.2.2⟩
      simp only [processRows, List.get?, hh.1]
    | succ n =>
      simp only [List.get?] at hr
      simp only [processRows, List.get?]
      exact ih (stratEnrichRow sk rs (orch head) c head ec).cache
        (stratEnrichRow_cache_mono sk rs (orch head) c head ec d m hc) n hr

/-- C1.  Within one session, once a first row with a non-empty normalized
domain `d` (explicit `company_domain`/`domain` column preferred over the
lower-cased email domain, leading `www.` stripped) has been processed from
a cache with no entry for `d`, every later call for a row with the same
normalized domain — at any position `i` of the remaining batch, with no
condition on that row beyond its domain — does not invoke the orchestrator
(hence no provider), and returns an enrichment map whose field set is a
subset of the non-null field set of the first row's result. -/
theorem session_cache_hit_subset (sk : String → Bool) (rs : String → String)
    (orch : Row → RowEnrichmentResult) (c0 : DomainCache) (ec : String)
    (r1 : Row) (rest : List Row) (d e1 : String)
    (hd1 : primaryDomain r1 ec = d) (hdne : d ≠ "")
    (he1 : rowGet r1 ec = some e1) (hne1 : e1 ≠ "") (hs1 : sk e1 = false)
    (hc0 : cacheGet c0 d = none)
    (i : Nat) (r2 : Row) (hr2 : rest.get? i = some r2)
    (hd2 : primaryDomain r2 ec = d) :
    ∃ res2 : RowEnrichmentResult,
      (processRows sk rs orch
        (stratEnrichRow sk rs (orch r1) c0 r1 ec).cache rest ec).1.get? i =
        some (res2, false) ∧
      res2.enrichments.map (fun p => p.1) ⊆
        (stratEnrichRow sk rs (orch r1) c0 r1 ec).result.enrichments.map (fun p => p.1) := by
  have hm := stratEnrichRow_miss sk rs (orch r1) c0 r1 ec e1 d he1 hne1 hs1 hd1 hdne hc0
  rw [hm]
  have hcache : cacheGet (cacheSet c0 d (filterNonNull (orch r1).enrichments)) d =
      some (filterNonNull (orch r1).enrichments) :=
    cacheGet_set_self c0 d (filterNonNull (orch r1).enrichments)
  exact processRows_cached_row sk rs orch ec d (filterNonNull (orch r1).enrichments)
    rest _ hcache i r2 hr2 hd2 hdne

/-- Witness for C1: two rows sharing the normalized domain `acme.com`, the
second through its email's `www.`-prefixed domain, with one concrete
enrichment cached and replayed. -/
theorem session_cache_hit_subset_witness :
    ∃ res2 : RowEnrichmentResult,
      (processRows (fun _ => false) (fun _ => "")
        (fun r => ⟨0, r,
          [("companyName",
            ⟨"companyName", .str "Acme", 90, "Multiple sources", [], none⟩)],
          .completed, none⟩)
        (stratEnrichRow (fun _ => false) (fun _ => "")
          ⟨0, [("email", "jane@acme.com")],
            [("companyName",
              ⟨"companyName", .str "Acme", 90, "Multiple sources", [], none⟩)],
            .completed, none⟩
          [] [("email", "jane@acme.com")] "email").cache
        [[("email", "bob@www.acme.com")]] "email").1.get? 0 =
        some (res2, false) ∧
      res2.enrichments.map (fun p => p.1) ⊆
        (stratEnrichRow (fun _ => false) (fun _ => "")
          ⟨0, [("email", "jane@acme.com")],
            [("companyName",
              ⟨"companyName", .str "Acme", 90, "Multiple sources", [], none⟩)],
            .completed, none⟩
          [] [("email", "jane@acme.com")] "email").result.enrichments.map (fun p => p.1) :=
  session_cache_hit_subset (fun _ => false) (fun _ => "")
    (fun r => ⟨0, r,
      [("companyName", ⟨"companyName", .str "Acme", 90, "Multiple sources", [], none⟩)],
      .completed, none⟩)
    [] "email" [("email", "jane@acme.com")] [[("email", "bob@www.acme.com")]]
    "acme.com" "jane@acme.com"
    (by decide) (by decide) (by decide) (by decide) (by decide) (by decide)
    0 [("email", "bob@www.acme.com")] (by decide) (by decide)

/-- C6 counterexample.  `keyInsights` is a canonical derived field, yet no
entry of the Portuguese section of the alias table resolves to it: the
bilingual-coverage claim fails for this field (its only alias,
`keyinsights`, sits in the English section). -/
theorem keyInsights_lacks_portuguese_alias :
    derivedKeys.contains "keyInsights" = true ∧
    portugueseAliasEntries.all (fun p => p.2 != "keyInsights") = true ∧
    englishAliasEntries.any (fun p => p.2 == "keyInsights") = true := by
  decide

/-- C6 as amended.  Every canonical derived field except `keyInsights` has
at least one English and at least one Portuguese alias resolving to it;
and the claim's example holds: the surface names `Empresa` and
`companyName` both resolve, through the field-resolution steps, to the
analysis' company name. -/
theorem alias_bilingual_coverage (k : String)
    (hk : derivedKeys.contains k = true) (hne : k ≠ "keyInsights") :
    englishAliasEntries.any (fun p => p.2 == k) = true ∧
    portugueseAliasEntries.any (fun p => p.2 == k) = true ∧
    (∀ ca : CompanyAnalysis,
      resolveDirectDerivedAlias ca "Empresa" = some (.str ca.company_name) ∧
      resolveDirectDerivedAlias ca "companyName" = some (.str ca.company_name)) := by
  have hex : ∀ ca : CompanyAnalysis,
      resolveDirectDerivedAlias ca "Empresa" = some (.str ca.company_name) ∧
      resolveDirectDerivedAlias ca "companyName" = some (.str ca.company_name) := by
    intro ca
    exact ⟨rfl, rfl⟩
  simp only [derivedKeys, List.contains_cons, List.contains_nil, Bool.or_eq_true,
    beq_iff_eq] at hk
  rcases hk with h | h | h | h | h | h | h | h | h | h | h | h <;>
    first
      | (exact absurd h hne)
      | (exact absurd h.symm hne)
      | (subst h; exact ⟨by decide, by decide, hex⟩)
      | (simp at h)

/-- Witness for C6 as amended at the company-name field. -/
theorem alias_bilingual_coverage_witness :
    englishAliasEntries.any (fun p => p.2 == "companyName") = true ∧
    portugueseAliasEntries.any (fun p => p.2 == "companyName") = true ∧
    (∀ ca : CompanyAnalysis,
      resolveDirectDerivedAlias ca "Empresa" = some (.str ca.company_name) ∧
      resolveDirectDerivedAlias ca "companyName" = some (.str ca.company_name)) :=
  alias_bilingual_coverage "companyName" (by decide) (by decide)

/-- Values produced by `normalizeValue` are never JavaScript `null`. -/
theorem normalizeValue_ne_null (v r : JsValue) (h : normalizeValue v = some r) :
    r ≠ JsValue.null := by
  cases v with
  | null => cases h
  | str s => cases h; intro hh; cases hh
  | num n => cases h; intro hh; cases hh
  | bool b => cases h; intro hh; cases hh
  | obj fs => cases h; intro hh; cases hh
  | arr xs =>
    simp only [normalizeValue] at h
    split at h <;> (cases h; intro hh; cases hh)

/-- Enrichment entries built by `resolveField` never carry a null value. -/
theorem resolveField_value_ne_null (ca : CompanyAnalysis)
    (people : Option PeopleOutput) (fields : List EnrichmentField)
    (f : EnrichmentField) (e : EnrichmentResult)
    (h : resolveField ca people fields f = some e) : e.value ≠ JsValue.null := by
  unfold resolveField at h
  split at h
  · rename_i v hv
    cases hnv : normalizeValue v with
    | none => rw [hnv] at h; cases h
    | some nv =>
      rw [hnv] at h
      cases h
      exact normalizeValue_ne_null v nv hnv
  · split at h
    · dsimp only at h
      cases hmv : (mapExecutiveField people f).value with
      | none => simp [hmv] at h
      | some mv =>
        simp only [hmv] at h
        cases hnv : normalizeValue mv with
        | none => simp [hnv] at h
        | some nv =>
          simp only [hnv] at h
          cases h
          exact normalizeValue_ne_null mv nv hnv
    · cases h

/-- Membership in a `setAssoc` result: either the inserted key or an
original entry. -/
theorem mem_setAssoc (l : Enrichments) (k : String) (v : EnrichmentResult)
    (p : String × EnrichmentResult) (h : p ∈ setAssoc l k v) :
    p = (k, v) ∨ p ∈ l := by
  unfold setAssoc at h
  split at h
  · rcases List.mem_map.mp h with ⟨q, hq, hpq⟩
    by_cases hqk : q.1 == k
    · rw [if_pos hqk] at hpq
      exact Or.inl hpq.symm
    · rw [if_neg hqk] at hpq
      exact Or.inr (hpq ▸ hq)
  · rcases List.mem_append.mp h with hq | hq
    · exact Or.inr hq
    · rcases List.mem_singleton.mp hq with rfl
      exact Or.inl rfl

/-- Fold invariant behind C7: when every remaining field with name `n`
fails to resolve and the accumulator has no `n` entry and no null values,
both properties survive the loop. -/
theorem orchFieldLoopAux_invariant (ca : CompanyAnalysis)
    (people : Option PeopleOutput) (fields : List EnrichmentField) (n : String) :
    ∀ (l : List EnrichmentField) (acc : Enrichments),
    (∀ f ∈ l, f.name = n → resolveField ca people fields f = none) →
    (∀ p ∈ acc, p.1 ≠ n) → (∀ p ∈ acc, p.2.value ≠ JsValue.null) →
    (∀ p ∈ l.foldl (fun acc2 f =>
        match resolveField ca people fields f with
        | some e => setAssoc acc2 f.name e
        | none => acc2) acc,
      p.1 ≠ n ∧ p.2.value ≠ JsValue.null) := by
  intro l
  induction l with
  | nil =>
    intro acc _ hk hv p hp
    exact ⟨hk p hp, hv p hp⟩
  | cons f rest ih =>
    intro acc hl hk hv p hp
    simp only [List.foldl_cons] at hp
    cases hres : resolveField ca people fields f with
    | none =>
      rw [hres] at hp
      exact ih acc (fun g hg => hl g (List.mem_cons_of_mem f hg)) hk hv p hp
    | some e =>
      rw [hres] at hp
      have hfn : f.name ≠ n := by
        intro hfn
        rw [hl f (List.mem_cons_self f rest) hfn] at hres
        cases hres
      refine ih (setAssoc acc f.name e)
        (fun g hg => hl g (List.mem_cons_of_mem f hg)) ?_ ?_ p hp
      · intro q hq
        rcases mem_setAssoc acc f.name e q hq with rfl | hq2
        · exact hfn
        · exact hk q hq2
      · intro q hq
        rcases mem_setAssoc acc f.name e q hq with rfl | hq2
        · exact resolveField_value_ne_null ca people fields f e hres
        · exact hv q hq2

/-- C7.  When no resolution step produces a value for a requested field
name `n` (direct key, derived mapping, alias mapping and executive mapping
all come back undefined, or the value normalizes to undefined, i.e.
`resolveField` is `none` for every requested field named `n`), the
orchestrator's row result omits `n` from its enrichments map entirely;
moreover no enrichment entry ever carries a null value, so absence is the
only encoding of "not found". -/
theorem unresolved_field_omitted (ca : CompanyAnalysis)
    (people : Option PeopleOutput) (row : Row) (fields : List EnrichmentField)
    (ec : String) (n : String)
    (h : ∀ f ∈ fields, f.name = n →
      resolveField ca (effectivePeople fields people) fields f = none) :
    ((orchEnrichRow (.ok ca) people row fields ec).enrichments.find?
      (fun p => p.1 == n)) = none ∧
    (∀ p ∈ (orchEnrichRow (.ok ca) people row fields ec).enrichments,
      p.2.value ≠ JsValue.null) := by
  unfold orchEnrichRow
  dsimp only
  split
  · exact ⟨rfl, by intro p hp; cases hp⟩
  · have hinv := orchFieldLoopAux_invariant ca (effectivePeople fields people)
      fields n fields [] h (by intro p hp; cases hp) (by intro p hp; cases hp)
    constructor
    · rw [List.find?_eq_none]
      intro p hp
      simp only [beq_iff_eq]
      exact (hinv p (by simpa [orchFieldLoop] using hp)).1
    · intro p hp
      exact (hinv p (by simpa [orchFieldLoop] using hp)).2

/-- Witness for C7: a single requested field whose name matches nothing in
the analysis, the derived table, the alias table or the executive
mappings. -/
theorem unresolved_field_omitted_witness :
    ((orchEnrichRow
        (.ok ⟨"Acme", "2025-01-01", "last_30d", "low", [], 0,
              [("organizacional", .num 0)], "insights", []⟩)
        none [("email", "jane@acme.com")]
        [⟨"unobtainium", "Unobtainium", "no such datum", "string", false⟩]
        "email").enrichments.find? (fun p => p.1 == "unobtainium")) = none ∧
    (∀ p ∈ (orchEnrichRow
        (.ok ⟨"Acme", "2025-01-01", "last_30d", "low", [], 0,
              [("organizacional", .num 0)], "insights", []⟩)
        none [("email", "jane@acme.com")]
        [⟨"unobtainium", "Unobtainium", "no such datum", "string", false⟩]
        "email").enrichments, p.2.value ≠ JsValue.null) :=
  unresolved_field_omitted
    ⟨"Acme", "2025-01-01", "last_30d", "low", [], 0,
     [("organizacional", .num 0)], "insights", []⟩
    none [("email", "jane@acme.com")]
    [⟨"unobtainium", "Unobtainium", "no such datum", "string", false⟩]
    "email" "unobtainium" (by decide)

/-- The numeric weight of a signal as the spec reads it (weights are the
digit strings 1-5; an unparseable weight counts as 0). -/
def signalWeightVal (s : SigIn) : Int :=
  (jsNumber (s.weight.getD "")).getD 0

/-- The ordering claimed by the spec for `priority_signals`: descending
weight, ties broken by recency (a more recent signal, i.e. one with fewer
elapsed days, first). -/
def sortedByWeightThenRecency (parseDateMs : String → Option Int) (nowMs : Int) :
    List SigIn → Bool
  | [] => true
  | [_] => true
  | a :: b :: rest =>
    (decide (signalWeightVal a > signalWeightVal b) ||
      (signalWeightVal a == signalWeightVal b &&
        decide (daysAgoM parseDateMs nowMs a.date ≤ daysAgoM parseDateMs nowMs b.date))) &&
    sortedByWeightThenRecency parseDateMs nowMs (b :: rest)

/-- C5 counterexample.  The post-processing step caps the signal list at
seven but never sorts it: feeding the analysis a weight-1 signal followed
by a weight-5 signal (undated, so no recency bonus applies) leaves them in
that order, which violates descending-weight sortedness even though the
length bound holds. -/
theorem webresearch_signals_not_sorted :
    sortedByWeightThenRecency (fun _ => none) 0
      ((postProcessAnalysis (fun _ => none) 0 []
        ⟨some "",
         some [⟨none, none, none, some "1", none, some "primeiro item", none,
                none, none, none, none⟩,
               ⟨none, none, none, some "5", none, some "segundo item", none,
                none, none, none, none⟩]⟩).priority_signals) = false ∧
    (postProcessAnalysis (fun _ => none) 0 []
      ⟨some "",
       some [⟨none, none, none, some "1", none, some "primeiro item", none,
              none, none, none, none⟩,
             ⟨none, none, none, some "5", none, some "segundo item", none,
              none, none, none, none⟩]⟩).priority_signals.length ≤ 7 := by
  decide

/-- The post-processing step never changes a signal's title. -/
theorem enrichOneSignal_title (parseDateMs : String → Option Int) (nowMs : Int)
    (allNews : List NewsItem) (s : SigIn) :
    (enrichOneSignal parseDateMs nowMs allNews s).title = s.title := by
  cases s
  rfl

/-- C5 as amended.  Every `priority_signals` list written back by the
web-research post-processing has length at most seven, and it is the
seven-prefix of the incoming signal list in the incoming order (each
signal weight-adjusted in place): no sorting by weight or recency is
applied. -/
theorem webresearch_signal_cap_order_preserved (parseDateMs : String → Option Int)
    (nowMs : Int) (allNews : List NewsItem) (ki : Option String)
    (sigs : List SigIn) :
    (postProcessAnalysis parseDateMs nowMs allNews ⟨ki, some sigs⟩).priority_signals.length ≤ 7 ∧
    (postProcessAnalysis parseDateMs nowMs allNews
      ⟨ki, some sigs⟩).priority_signals.map (fun s => s.title) =
      (sigs.map (fun s => s.title)).take 7 := by
  constructor
  · simp [postProcessAnalysis]
  · show ((sigs.map (enrichOneSignal parseDateMs nowMs allNews)).take 7).map
      (fun s => s.title) = (sigs.map (fun s => s.title)).take 7
    rw [← List.map_take, List.map_map, ← List.map_take]
    exact List.map_congr_left (fun a _ =>
      enrichOneSignal_title parseDateMs nowMs allNews a)

/-- Behaviour of the shared retry loop when no fetch in the remaining
budget succeeds: the loop issues exactly one fetch per budgeted attempt,
sleeps the per-attempt backoff (the 429 delay or the shorter generic one)
after each, and finally gives up with the throw. -/
theorem snovLoop_all_fail {α : Type} (resps : Nat → HttpResp α) :
    ∀ (budget attempts : Nat),
    (∀ k, k < budget → isOkResp (resps (attempts + k)) = false) →
    (snovLoop resps attempts budget).1 = .error () ∧
    (snovLoop resps attempts budget).2.2 = attempts + budget ∧
    (∀ k, k < budget → (snovLoop resps attempts budget).2.1.get? k =
      some (delayFor resps (attempts + k))) := by
  intro budget
  induction budget with
  | zero =>
    intro attempts _
    exact ⟨rfl, rfl, fun k hk => absurd hk (by omega)⟩
  | succ b ih =>
    intro attempts h
    have h0 : isOkResp (resps attempts) = false := by
      have := h 0 (Nat.succ_pos b)
      rwa [Nat.add_zero] at this
    have hsh : ∀ k, k < b → isOkResp (resps (attempts + 1 + k)) = false := by
      intro k hk
      have := h (k + 1) (by omega)
      rwa [show attempts + (k + 1) = attempts + 1 + k by omega] at this
    have ihr := ih (attempts + 1) hsh
    cases hres : resps attempts with
    | ok v =>
      rw [hres] at h0
      cases h0
    | status c =>
      simp only [snovLoop, hres]
      refine ⟨ihr.1, by rw [ihr.2.1]; omega, ?_⟩
      intro k hk
      cases k with
      | zero =>
        simp only [List.get?]
        rw [show delayFor resps (attempts + 0) = delayFor resps attempts by
          rw [Nat.add_zero]]
        simp [delayFor, is429, hres]
      | succ k2 =>
        simp only [List.get?]
        rw [ihr.2.2 k2 (by omega)]
        rw [show attempts + 1 + k2 = attempts + (k2 + 1) by omega]
    | netErr =>
      simp only [snovLoop, hres]
      refine ⟨ihr.1, by rw [ihr.2.1]; omega, ?_⟩
      intro k hk
      cases k with
      | zero =>
        simp only [List.get?]
        rw [show delayFor resps (attempts + 0) = delayFor resps attempts by
          rw [Nat.add_zero]]
        simp [delayFor, is429, hres]
      | succ k2 =>
        simp only [List.get?]
        rw [ihr.2.2 k2 (by omega)]
        rw [show attempts + 1 + k2 = attempts + (k2 + 1) by omega]

/-- C8 counterexample.  Four straight non-429 failures exhaust exactly the
same four-attempt cap as four straight 429s — non-429 failures do not give
up after fewer attempts, they only sleep less (`400·attempt` instead of
`min(1500·attempt, 5000)`); this holds for `snovPost` and `snovGet` alike. -/
theorem snov_non429_same_attempt_cap :
    (snovPost (fun _ => (HttpResp.status 500 : HttpResp Nat))).2.2 = 4 ∧
    (snovPost (fun _ => (HttpResp.status 429 : HttpResp Nat))).2.2 = 4 ∧
    (snovPost (fun _ => (HttpResp.status 500 : HttpResp Nat))).1 = Except.error () ∧
    (snovPost (fun _ => (HttpResp.status 429 : HttpResp Nat))).1 = Except.error () ∧
    (snovPost (fun _ => (HttpResp.status 429 : HttpResp Nat))).2.1 =
      [1500, 3000, 4500, 5000] ∧
    (snovPost (fun _ => (HttpResp.status 500 : HttpResp Nat))).2.1 =
      [400, 800, 1200, 1600] ∧
    (snovGet (fun _ => (HttpResp.status 500 : HttpResp Nat))).2.2 = 4 ∧
    (snovGet (fun _ => (HttpResp.status 429 : HttpResp Nat))).2.2 = 4 :=
  ⟨rfl, rfl, rfl, rfl, rfl, rfl, rfl, rfl⟩

/-- C8 as amended.  `snovPost` and `snovGet` run the identical policy: a
429 is retried with the capped backoff `min(1500·attempt, 5000)` and other
failures with the shorter `400·attempt`, both against one shared attempt
counter capped at four; when nothing succeeds the loop issues exactly four
fetches and then throws, and a first-fetch success returns at once with no
backoff. -/
theorem snov_retry_policy {α : Type} (resps : Nat → HttpResp α) :
    snovPost resps = snovGet resps ∧
    ((∀ k, k < 4 → isOkResp (resps k) = false) →
      (snovPost resps).1 = .error () ∧ (snovPost resps).2.2 = 4 ∧
      (∀ k, k < 4 → (snovPost resps).2.1.get? k = some (delayFor resps k))) ∧
    (∀ v, resps 0 = .ok v → snovPost resps = (.ok v, ([], 1))) := by
  refine ⟨rfl, ?_, ?_⟩
  · intro h
    have := snovLoop_all_fail resps 4 0 (by intro k hk; simpa using h k hk)
    simpa [snovPost] using this
  · intro v h
    simp [snovPost, snovLoop, h]

/-- Witness for C8 as amended: the all-429 stream exhausts the cap, and an
immediately successful stream returns after one fetch. -/
theorem snov_retry_policy_witness :
    (snovPost (fun _ => (HttpResp.status 429 : HttpResp Nat))).2.2 = 4 ∧
    snovPost (fun _ => (HttpResp.ok 7 : HttpResp Nat)) = (.ok 7, ([], 1)) :=
  ⟨((snov_retry_policy (fun _ => (HttpResp.status 429 : HttpResp Nat))).2.1
      (by decide)).2.1,
   (snov_retry_policy (fun _ => (HttpResp.ok 7 : HttpResp Nat))).2.2 7 rfl⟩

/-- C2 counterexample.  `runDiscoveryAgent` does throw to its caller: when
the MCP call fails and the REST Explorium fallback (which rethrows its own
failures) fails too, the exception escapes `runDiscoveryAgent` — no
minimal low-strength `CompanyAnalysis` is substituted.  (The orchestrator
catches it one level up and turns the row into an error result.) -/
theorem runDiscoveryAgent_throws_on_rest_failure :
    runDiscoveryAgent
      ⟨Except.error "fetch failed",
       Except.error "Explorium API request failed with status 500",
       Except.error "unused",
       fun _ => Except.error "unused"⟩
      "jane@acme.com" ⟨none, none, none⟩ =
      Except.error "Explorium API request failed with status 500" := rfl

/-- C2 as amended.  `runDiscoveryAgent` propagates any failure of its
component steps — firmographic resolution (MCP with its double REST
fallback), the web-research call, or zod validation of the answer — as an
exception to its caller, and returns one `CompanyAnalysis` exactly when
all of them succeed; the minimal low-strength fallback exists only as an
instruction inside the LLM prompt, not in code. -/
theorem runDiscoveryAgent_failure_propagation (env : DiscoveryEnv)
    (email : String) (opts : DiscoveryOptions) :
    (∀ e, discoveryEnriched env.mcp env.rest1 env.rest2 = .error e →
      runDiscoveryAgent env email opts = .error e) ∧
    (∀ m j ca, discoveryEnriched env.mcp env.rest1 env.rest2 = .ok m →
      env.webResearch (mkWebResearchInput m opts (emailDomainRegex email)) = .ok j →
      zodParseCompanyAnalysisResult j = .ok ca →
      runDiscoveryAgent env email opts = .ok ca) := by
  constructor
  · intro e h
    simp [runDiscoveryAgent, h, bind, Except.bind]
  · intro m j ca h1 h2 h3
    simp [runDiscoveryAgent, h1, h2, h3, bind, Except.bind]

/-- Witness for C2 as amended: a failing environment propagates its error,
and a fully successful environment (a well-typed JSON answer with no
signals) yields the parsed analysis. -/
theorem runDiscoveryAgent_failure_propagation_witness :
    runDiscoveryAgent
      ⟨Except.error "fetch failed", Except.error "ECONNREFUSED",
       Except.error "unused", fun _ => Except.error "unused"⟩
      "jane@acme.com" ⟨none, none, none⟩ = Except.error "ECONNREFUSED" ∧
    runDiscoveryAgent
      ⟨Except.ok ⟨some "Acme", some "acme.com", some "SaaS", some "BR", some []⟩,
       Except.error "unused", Except.error "unused",
       fun _ => Except.ok (.obj [("company_analysis", .obj
         [("company_name", .str "Acme"),
          ("search_date", .str "2025-01-01"),
          ("data_freshness", .str "last_30d"),
          ("overall_signal_strength", .str "low"),
          ("priority_signals", .arr []),
          ("total_signals_found", .num 0),
          ("signals_by_category", .obj
            [("organizacional", .num 0), ("mercado", .num 0),
             ("performance", .num 0)]),
          ("key_insights", .str "ok"),
          ("personalization_hooks", .arr [.str "hook"])])])⟩
      "jane@acme.com" ⟨none, none, none⟩ =
      Except.ok ⟨"Acme", "2025-01-01", "last_30d", "low", [], 0,
        [("organizacional", .num 0), ("mercado", .num 0), ("performance", .num 0)],
        "ok", ["hook"]⟩ :=
  ⟨(runDiscoveryAgent_failure_propagation
      ⟨Except.error "fetch failed", Except.error "ECONNREFUSED",
       Except.error "unused", fun _ => Except.error "unused"⟩
      "jane@acme.com" ⟨none, none, none⟩).1 "ECONNREFUSED" rfl,
   (runDiscoveryAgent_failure_propagation
      ⟨Except.ok ⟨some "Acme", some "acme.com", some "SaaS", some "BR", some []⟩,
       Except.error "unused", Except.error "unused",
       fun _ => Except.ok (.obj [("company_analysis", .obj
         [("company_name", .str "Acme"),
          ("search_date", .str "2025-01-01"),
          ("data_freshness", .str "last_30d"),
          ("overall_signal_strength", .str "low"),
          ("priority_signals", .arr []),
          ("total_signals_found", .num 0),
          ("signals_by_category", .obj
            [("organizacional", .num 0), ("mercado", .num 0),
             ("performance", .num 0)]),
          ("key_insights", .str "ok"),
          ("personalization_hooks", .arr [.str "hook"])])])⟩
      "jane@acme.com" ⟨none, none, none⟩).2 _ _ _ rfl rfl rfl⟩

/-- C3 counterexample.  A provider adapter that fails does not answer
`null`: with every fetch crashing, the Apollo company tool returns its
minimal fallback record (hint name, `unknown` industry and country), and
with OAuth failing the Snov tool returns its `has_data: false` object —
both of them non-null sentinels. -/
theorem apollo_failure_returns_record_not_null :
    apolloExecute (fun _ => FetchRes.crash) (some "Acme") none ≠ none ∧
    apolloExecute (fun _ => FetchRes.crash) (some "Acme") none =
      some (apolloFallback (some "Acme") none) ∧
    snovToolExecute none (Except.error ()) (fun _ => Except.error ()) "acme.com" =
      snovNoData := by
  refine ⟨?_, rfl, rfl⟩
  intro h
  cases h

/-- On a fail-only fetch stream, one endpoint round yields either the
thrown crash or no usable response. -/
theorem apolloFetchEndpoint_no_ok (fetches : Nat → FetchRes ApolloJson)
    (h : ∀ k, isOkFetch (fetches k) = false) (i : Nat) :
    apolloFetchEndpoint fetches i = .error () ∨
    apolloFetchEndpoint fetches i = .ok (none, i + 3) := by
  unfold apolloFetchEndpoint
  cases h1 : fetches i with
  | ok v =>
    have hthis := h i
    rw [h1] at hthis
    simp [isOkFetch] at hthis
  | crash => exact Or.inl rfl
  | bad =>
    cases h2 : fetches (i + 1) with
    | ok v =>
      have hthis := h (i + 1)
      rw [h2] at hthis
      simp [isOkFetch] at hthis
    | crash => exact Or.inl rfl
    | bad =>
      cases h3 : fetches (i + 2) with
      | ok v =>
        have hthis := h (i + 2)
        rw [h3] at hthis
        simp [isOkFetch] at hthis
      | crash => exact Or.inl rfl
      | bad => exact Or.inr rfl

/-- On a fail-only fetch stream the endpoint loop never finds a record. -/
theorem apolloFindRecord_no_ok (fetches : Nat → FetchRes ApolloJson)
    (h : ∀ k, isOkFetch (fetches k) = false) :
    ∀ (n i : Nat), apolloFindRecord fetches n i = .error () ∨
      apolloFindRecord fetches n i = .ok none := by
  intro n
  induction n with
  | zero => intro i; exact Or.inr rfl
  | succ m ih =>
    intro i
    rcases apolloFetchEndpoint_no_ok fetches h i with he | he
    · left
      simp only [apolloFindRecord, he]
    · simp only [apolloFindRecord, he]
      exact ih (i + 3)

/-- C3 as amended.  The adapters never throw and signal failure with
non-null sentinels that callers treat as "no data": the Apollo company
tool always returns a record — the minimal fallback when every fetch
fails — the Snov tool returns `has_data: false` on an empty domain, a
missing token or a thrown start request, and only the Apollo person-match
tool answers `null` (on a crash or a non-2xx response). -/
theorem provider_failure_sentinels (fetches : Nat → FetchRes ApolloJson)
    (name domain : Option String) (token : Option String)
    (start : Except Unit SnovStartResp) (polls : Nat → Except Unit SnovPollResp)
    (sdomain : String) (em : String) :
    (apolloExecute fetches name domain).isSome = true ∧
    ((∀ k, isOkFetch (fetches k) = false) →
      apolloExecute fetches name domain = some (apolloFallback name domain)) ∧
    (token = none → snovToolExecute token start polls sdomain = snovNoData) ∧
    snovToolExecute token (Except.error ()) polls sdomain = snovNoData ∧
    apolloPersonMatch FetchRes.crash em = none ∧
    apolloPersonMatch FetchRes.bad em = none := by
  refine ⟨?_, ?_, ?_, ?_, rfl, rfl⟩
  · unfold apolloExecute
    split <;> simp
  · intro h
    unfold apolloExecute
    rcases apolloFindRecord_no_ok fetches h 3 0 with he | he <;> rw [he]
  · intro h
    subst h
    unfold snovToolExecute
    dsimp only
    split <;> rfl
  · unfold snovToolExecute
    cases token <;> (dsimp only; split <;> rfl)

/-- Witness for C3 as amended: all-failing fetches for the company tool
and a missing token for the Snov tool. -/
theorem provider_failure_sentinels_witness :
    apolloExecute (fun _ => FetchRes.bad) (some "Acme") (some "acme.com") =
      some (apolloFallback (some "Acme") (some "acme.com")) ∧
    snovToolExecute none (Except.ok ⟨some "hash", none⟩)
      (fun _ => Except.error ()) "https://www.acme.com" = snovNoData :=
  ⟨(provider_failure_sentinels (fun _ => FetchRes.bad) (some "Acme")
      (some "acme.com") none (Except.ok ⟨some "hash", none⟩)
      (fun _ => Except.error ()) "https://www.acme.com" "x@y.z").2.1
      (fun _ => rfl),
   (provider_failure_sentinels (fun _ => FetchRes.bad) (some "Acme")
      (some "acme.com") none (Except.ok ⟨some "hash", none⟩)
      (fun _ => Except.error ()) "https://www.acme.com" "x@y.z").2.2.1 rfl⟩

end NuviaEnrich
